import Mathlib

/-!
# futteru: the cell codec, the grid and the simulation engine

A shallow embedding of `src/futteru.c`.

* `uint8_t`, `uint16_t` and `size_t` values are natural numbers; `int` values are
  integers.  Where C arithmetic can leave the range of its type the wrap is explicit
  (`wrap32`, `SIZE_MOD`).
* The heap block `mat->data` is a list of bytes.  An access outside the block is
  undefined behaviour in C and is `none` here, so every function that touches the
  block returns an `Option`.
* `rand()` is an infinite stream of naturals which the functions consume from the
  front; the unconsumed rest is returned next to the result.
* A `float` is the rational number it stands for (`char_ratio` holds a binary32 value).
  The float products and quotients of `mat_update` and `mat_rain` are rounded to the
  nearest binary32 value, ties to even (`f32_round`); only the density of `main`
  (`main_drops_ratio`) is computed exactly.
-/

namespace Futteru

/-! ## Constants -/

/-- Mask of the foreground nibble: `BITMASK_FG 0x0F`. -/
def BITMASK_FG : Nat := 0x0F

/-- Mask of the background nibble: `BITMASK_BG 0xF0`. -/
def BITMASK_BG : Nat := 0xF0

/-- Layer tag of the foreground: `LAYER_FG 1`. -/
def LAYER_FG : Nat := 1

/-- Layer tag of the background: `LAYER_BG 2`. -/
def LAYER_BG : Nat := 2

/-- The palette `static char glyphs[]`, as unsigned character codes. -/
def glyphs : List Nat := [32, 42, 46, 164, 176, 183, 215]

/-- Size of the palette: `NUM_GLYPHS`, that is `sizeof(glyphs) / sizeof(glyphs[0])`. -/
def NUM_GLYPHS : Nat := glyphs.length

/-- Number of values of `size_t` (64 bit). -/
def SIZE_MOD : Nat := 2 ^ 64

/-- Two's complement reduction of an integer to the range of a 32 bit `int`. -/
def wrap32 (x : Int) : Int := (x + 2 ^ 31) % 2 ^ 32 - 2 ^ 31

/-- Conversion of an `int` to `uint8_t`. -/
def to_uint8 (x : Int) : Nat := (x % 256).toNat

/-- Conversion of an exact real to `int`: the fraction is discarded (towards zero). -/
def trunc_int (q : ℚ) : Int := wrap32 (if 0 ≤ q then ⌊q⌋ else ⌈q⌉)

/-! ## Binary32 arithmetic -/

/-- Halving `n` until it is below 2, at most `fuel` times: the number of halvings. -/
def log2_floor_loop : Nat → Nat → Nat
  | 0, _ => 0
  | fuel + 1, n => if n < 2 then 0 else log2_floor_loop fuel (n / 2) + 1

/-- The integer part of the binary logarithm of a positive natural number. -/
def log2_floor (n : Nat) : Nat := log2_floor_loop n n

/-- Exponent of the last place of the binary32 values next to the positive rational
`a / b`: `e - 23` for `2 ^ e <= a / b < 2 ^ (e + 1)`, and `-126 - 23` in the subnormal
range. -/
def f32_exp (a b : Nat) : Int :=
  let e0 : Int := (log2_floor a : Int) - (log2_floor b : Int)
  let e : Int := if b * 2 ^ e0.toNat ≤ a * 2 ^ (-e0).toNat then e0 else e0 - 1
  max e (-126) - 23

/-- The positive rational `a / b` in units of the last place `2 ^ f32_exp a b`, rounded to
the nearest integer, ties to the even one. -/
def f32_mant (a b : Nat) : Nat :=
  let k : Int := f32_exp a b
  let N : Nat := a * 2 ^ (-k).toNat
  let D : Nat := b * 2 ^ k.toNat
  let n0 : Nat := N / D
  let rem : Nat := N % D
  if 2 * rem < D then n0
  else if D < 2 * rem then n0 + 1
  else if n0 % 2 = 0 then n0 else n0 + 1

/-- Rounding of a real to binary32 (IEEE 754 single precision), to the nearest value with
ties to even, as every `float` operation and every conversion to `float` does.  Values
beyond the largest finite binary32 value are not modelled; none arises from a grid with
`rows * cols < 2 ^ 31` and a density of at most 1. -/
def f32_round (q : ℚ) : ℚ :=
  if q.num = 0 then 0
  else (if q.num < 0 then -1 else 1) *
    ((f32_mant q.num.natAbs q.den : ℚ) * 2 ^ f32_exp q.num.natAbs q.den)

/-! ## The random source -/

/-- The results of the successive calls of `rand()`. -/
abbrev Rng := Nat → Nat

/-- The stream after one call of `rand()`. -/
def Rng.next (rng : Rng) : Rng := fun n => rng (n + 1)

/-- The function `rand_int(min, max)` for the `rand()` result `r`:
`return min + rand() % ((max + 1) - min);` -/
def rand_int (min max : Int) (r : Nat) : Int :=
  min + Int.tmod (r : Int) ((max + 1) - min)

/-! ## Cell codec -/

/-- Source function `val_new`: `return (BITMASK_BG & (bg << 4)) | (BITMASK_FG & fg);` -/
def val_new (fg bg : Nat) : Nat :=
  (BITMASK_BG &&& (bg <<< 4)) ||| (BITMASK_FG &&& fg)

/-- Source function `val_get_fg`: `return value & BITMASK_FG;` -/
def val_get_fg (value : Nat) : Nat := value &&& BITMASK_FG

/-- Source function `val_get_bg`: `return (value & BITMASK_BG) >> 4;` -/
def val_get_bg (value : Nat) : Nat := (value &&& BITMASK_BG) >>> 4

/-! ## The grid -/

/-- The grid, `struct matrix`. -/
structure matrix where
  /-- the heap block `uint8_t *data` -/
  data : List Nat
  /-- number of columns (`uint16_t`) -/
  cols : Nat
  /-- number of rows (`uint16_t`) -/
  rows : Nat
  /-- current number of drops (`size_t`) -/
  char_count : Nat
  /-- desired ratio of drops (`float`) -/
  char_ratio : ℚ
deriving DecidableEq

/-- Read of `data[idx]`; `none` outside the block. -/
def mem_read (data : List Nat) (idx : Int) : Option Nat :=
  if idx < 0 then none else data[idx.toNat]?

/-- Write of `data[idx] = v`; `none` outside the block. -/
def mem_write (data : List Nat) (idx : Int) (v : Nat) : Option (List Nat) :=
  if idx < 0 then none
  else if idx.toNat < data.length then some (data.set idx.toNat v) else none

/-- Source function `mat_idx`: `return row * mat->cols + col;` -/
def mat_idx (mat : matrix) (row col : Int) : Int :=
  wrap32 (row * (mat.cols : Int) + col)

/-- Source function `mat_get_value`. -/
def mat_get_value (mat : matrix) (row col : Int) : Option Nat :=
  if row ≥ (mat.rows : Int) then some 0
  else if col ≥ (mat.cols : Int) then some 0
  else mem_read mat.data (mat_idx mat row col)

/-- Source function `mat_get_fg`. -/
def mat_get_fg (mat : matrix) (row col : Int) : Option Nat :=
  (mat_get_value mat row col).map val_get_fg

/-- Source function `mat_get_bg`. -/
def mat_get_bg (mat : matrix) (row col : Int) : Option Nat :=
  (mat_get_value mat row col).map val_get_bg

/-- Source function `mat_get_glyph`. -/
def mat_get_glyph (mat : matrix) (row col : Int) (layer : Nat) : Option Nat :=
  if layer = LAYER_FG then (mat_get_value mat row col).map val_get_fg
  else if layer = LAYER_BG then (mat_get_value mat row col).map val_get_bg
  else some 0

/-- Source function `mat_set_value`: the returned byte and the grid after the call. -/
def mat_set_value (mat : matrix) (row col : Int) (value : Nat) : Option (Nat × matrix) :=
  if row ≥ (mat.rows : Int) then some (0, mat)
  else if col ≥ (mat.cols : Int) then some (0, mat)
  else (mem_write mat.data (mat_idx mat row col) value).map
    fun d => (value, { mat with data := d })

/-- Source function `mat_set_fg`. -/
def mat_set_fg (mat : matrix) (row col : Int) (glyph : Nat) : Option (Nat × matrix) := do
  let bg ← mat_get_bg mat row col
  mat_set_value mat row col (val_new glyph bg)

/-- Source function `mat_set_bg`. -/
def mat_set_bg (mat : matrix) (row col : Int) (glyph : Nat) : Option (Nat × matrix) := do
  let fg ← mat_get_fg mat row col
  mat_set_value mat row col (val_new fg glyph)

/-- Source function `mat_set_glyph`: the two `if`s run one after the other. -/
def mat_set_glyph (mat : matrix) (row col : Int) (glyph layer : Nat) : Option matrix := do
  let mat1 ←
    if layer &&& LAYER_FG ≠ 0 then do
      let bg ← mat_get_bg mat row col
      let r ← mat_set_value mat row col (val_new glyph bg)
      pure r.2
    else pure mat
  if layer &&& LAYER_BG ≠ 0 then do
    let fg ← mat_get_fg mat1 row col
    let r ← mat_set_value mat1 row col (val_new fg glyph)
    pure r.2
  else pure mat1

/-- Source function `mat_add_drop`: the grid and the random stream after the call. -/
def mat_add_drop (mat : matrix) (row col layer : Int) (rng : Rng) : Option (matrix × Rng) :=
  if col < 0 then some (mat, rng)
  else if col ≥ (mat.cols : Int) then some (mat, rng)
  else if row < 0 then some (mat, rng)
  else if row ≥ (mat.rows : Int) then some (mat, rng)
  else do
    let glyph ← mat_get_glyph mat row col (to_uint8 layer)
    if glyph ≠ 0 then pure (mat, rng)
    else do
      let mat1 ← mat_set_glyph mat row col
        (to_uint8 (rand_int 1 ((NUM_GLYPHS : Int) - 1) (rng 0))) (to_uint8 layer)
      pure ({ mat1 with char_count := (mat1.char_count + 1) % SIZE_MOD }, rng.next)

/-- The `for (int row = mat->rows - 1; row >= 0; --row)` loop of `mat_mov_col`;
the first argument is `row + 1`, so the loop is left when it is 0. -/
def mat_mov_col_loop (col : Int) (layer : Nat) : Nat → matrix → Option matrix
  | 0, mat => some mat
  | row + 1, mat => do
    let glyph ← mat_get_glyph mat (row : Int) col layer
    if glyph ≠ 0 then do
      let mat1 ← mat_set_glyph mat ((row : Int) + 1) col glyph layer
      let mat2 ← mat_set_glyph mat1 (row : Int) col 0 layer
      mat_mov_col_loop col layer row mat2
    else mat_mov_col_loop col layer row mat

/-- Source function `mat_mov_col`: the returned `dropped` and the grid after the call. -/
def mat_mov_col (mat : matrix) (col : Int) (layer : Nat) : Option (Nat × matrix) := do
  let g ← mat_get_glyph mat ((mat.rows : Int) - 1) col layer
  let dropped := if g ≠ 0 then 1 else 0
  let mat1 ← mat_mov_col_loop col layer mat.rows mat
  pure (dropped, mat1)

/-- The `for (int col = 0; col < mat->cols; ++col)` loop of `mat_update`, with `n`
iterations left and `col` the current column:
`mat->char_count -= mat_mov_col(mat, col, layer);` -/
def mat_update_fall (layer : Nat) : Nat → Nat → matrix → Option matrix
  | 0, _, mat => some mat
  | n + 1, col, mat => do
    let r ← mat_mov_col mat (col : Int) layer
    mat_update_fall layer n (col + 1)
      { r.2 with char_count := (r.2.char_count + SIZE_MOD - r.1) % SIZE_MOD }

/-- Source line `int drops_desired = (mat->cols * mat->rows) * mat->char_ratio;`: the
`int` product is converted to `float`, the `float` product is rounded, and the result is
converted to `int`. -/
def drops_desired (mat : matrix) : Int :=
  trunc_int (f32_round
    (f32_round (wrap32 ((mat.cols : Int) * (mat.rows : Int)) : ℚ) * mat.char_ratio))

/-- Source line `int drops_missing = drops_desired - mat->char_count;` (a `size_t` difference
converted back to `int`). -/
def drops_missing (mat : matrix) : Int :=
  wrap32 (drops_desired mat - (mat.char_count : Int))

/-- Source line `int drops_to_add = ceil(drops_missing / (float) mat->rows);`: both
operands are converted to `float`, the `float` quotient is rounded, `ceil` is exact. -/
def drops_to_add (mat : matrix) : Int :=
  wrap32 ⌈f32_round
    (f32_round ((drops_missing mat : Int) : ℚ) / f32_round ((mat.rows : Nat) : ℚ))⌉

/-- Number of times the body of `for (int i = 0; i <= drops_to_add; ++i)` runs. -/
def spawn_iterations (to_add : Int) : Nat := (to_add + 1).toNat

/-- The spawn loop of `mat_update` with `n` iterations left:
`mat_add_drop(mat, 0, rand_int(0, mat->cols - 1), layer);` -/
def mat_update_spawn (layer : Nat) : Nat → matrix → Rng → Option (matrix × Rng)
  | 0, mat, rng => some (mat, rng)
  | n + 1, mat, rng => do
    let col := rand_int 0 ((mat.cols : Int) - 1) (rng 0)
    let r ← mat_add_drop mat 0 col (layer : Int) rng.next
    mat_update_spawn layer n r.1 r.2

/-- Source function `mat_update`. -/
def mat_update (mat : matrix) (layer : Nat) (rng : Rng) : Option (matrix × Rng) := do
  let mat1 ← mat_update_fall layer mat.cols 0 mat
  mat_update_spawn layer (spawn_iterations (drops_to_add mat1)) mat1 rng

/-- Source line `int num = (int) (mat->cols * mat->rows) * mat->char_ratio;`: the cast
applies to the `int` product, which is converted to `float`; the `float` product is
rounded and the result is converted to `int`. -/
def rain_num (mat : matrix) : Int :=
  trunc_int (f32_round
    (f32_round (wrap32 ((mat.cols : Int) * (mat.rows : Int)) : ℚ) * mat.char_ratio))

/-- The `for (int i = 0; i < num; ++i)` loop of `mat_rain` with `n` iterations left. -/
def mat_rain_loop : Nat → matrix → Rng → Option (matrix × Rng)
  | 0, mat, rng => some (mat, rng)
  | n + 1, mat, rng => do
    let c := rand_int 0 ((mat.cols : Int) - 1) (rng 0)
    let r := rand_int 0 ((mat.rows : Int) - 1) (rng 1)
    let layer := rand_int (LAYER_FG : Int) (LAYER_BG : Int) (rng 2)
    let s ← mat_add_drop mat r c layer rng.next.next.next
    mat_rain_loop n s.1 s.2

/-- Source function `mat_rain`. -/
def mat_rain (mat : matrix) (rng : Rng) : Option (matrix × Rng) :=
  mat_rain_loop (rain_num mat).toNat mat rng

/-- Outcome of `realloc(old, n)`: `none` when the allocation fails, else a block of
`n` bytes that starts with the bytes of the old block; the bytes beyond them are
whatever the allocator hands out (`fresh`). -/
def realloc (old : List Nat) (n : Nat) (fresh : Option (Nat → Nat)) : Option (List Nat) :=
  fresh.map fun f => (List.range n).map fun i => (old[i]?).getD (f i % 256)

/-- Value of `sizeof(mat->data)`: the size of a pointer. -/
def SIZEOF_PTR : Nat := 8

/-- Source function `mat_init`: the return value and the grid after the call. -/
def mat_init (mat : matrix) (rows cols : Nat) (char_ratio : ℚ)
    (fresh : Option (Nat → Nat)) : Int × matrix :=
  match realloc mat.data (SIZEOF_PTR * rows * cols) fresh with
  | none => (-1, { mat with data := [] })
  | some d =>
    (0, { data := d, rows := rows, cols := cols, char_count := 0,
          char_ratio := char_ratio })

/-! ## Well-formed grids and views used in the statements -/

/-- A grid as the program can hold it: the dimensions are `uint16_t` values, the
`int` index arithmetic on `rows * cols` cells does not overflow, the block has
room for every cell, its elements are bytes and `char_count` is a `size_t`. -/
def Grid (m : matrix) : Prop :=
  m.rows < 2 ^ 16 ∧ m.cols < 2 ^ 16 ∧ m.rows * m.cols < 2 ^ 31 ∧
  m.rows * m.cols ≤ m.data.length ∧ (∀ b ∈ m.data, b < 256) ∧ m.char_count < SIZE_MOD

instance (m : matrix) : Decidable (Grid m) := by
  unfold Grid; infer_instance

/-- The glyph index a cell byte holds on a layer (what `mat_get_glyph` decodes). -/
def get_layer (value layer : Nat) : Nat :=
  if layer = LAYER_FG then val_get_fg value
  else if layer = LAYER_BG then val_get_bg value
  else 0

/-- The cell byte `mat_set_glyph` writes for one of the two layers. -/
def put_layer (value glyph layer : Nat) : Nat :=
  if layer = LAYER_FG then val_new glyph (val_get_bg value)
  else val_new (val_get_fg value) glyph

/-- Number of cells of the grid (the first `rows * cols` bytes of the block) whose
glyph index on `layer` is not 0. -/
def layer_count (m : matrix) (layer : Nat) : Nat :=
  (m.data.take (m.rows * m.cols)).countP fun v => get_layer v layer ≠ 0

/-! ## Concrete grids -/

/-- A grid of 3 rows and 2 columns with 5 foreground and 3 background glyphs. -/
def grid_3x2 : matrix :=
  { data := [0x21, 0x02, 0x03, 0x40, 0x05, 0x16], cols := 2, rows := 3, char_count := 8,
    char_ratio := 0 }

/-- An all-blank grid of 2 rows and 2 columns with density 0. -/
def grid_blank_2x2 : matrix :=
  { data := [0, 0, 0, 0], cols := 2, rows := 2, char_count := 0, char_ratio := 0 }

/-- An all-blank grid of one cell with density 0. -/
def grid_blank_1x1 : matrix :=
  { data := [0], cols := 1, rows := 1, char_count := 0, char_ratio := 0 }

/-- A grid of 4 rows and 1 column with density 0 whose only glyph is the foreground
glyph `g` at row 0. -/
def grid_lone (g : Nat) : matrix :=
  { data := [g, 0, 0, 0], cols := 1, rows := 4, char_count := 1, char_ratio := 0 }

/-- A grid of one cell, as `mat_init(mat, 1, 1, 0.1)` allocates it (a block of
`sizeof(mat->data) * 1 * 1` bytes), holding foreground glyph 1 and background glyph 2. -/
def grid_1x1_full : matrix :=
  { data := [0x21, 0, 0, 0, 0, 0, 0, 0], cols := 1, rows := 1, char_count := 2,
    char_ratio := 1 / 10 }

/-- The grid before the first `mat_init`: `matrix_s mat = { 0 };` -/
def matrix_zero : matrix :=
  { data := [], cols := 0, rows := 0, char_count := 0, char_ratio := 0 }

/-! ## Sequences of calls -/

/-- The two layers an operation can address. -/
inductive Layer where
  | fg
  | bg
deriving DecidableEq

/-- The tag of a layer, `LAYER_FG` or `LAYER_BG`. -/
def Layer.tag : Layer → Nat
  | .fg => LAYER_FG
  | .bg => LAYER_BG

/-- The layer that is not the given one. -/
def Layer.other : Layer → Layer
  | .fg => .bg
  | .bg => .fg

/-- A call of one of the operations that change a grid. -/
inductive Op where
  | add_drop (row col : Int) (layer : Layer)
  | update (layer : Layer)
  | rain

/-- The effect of one call on the grid and the random stream. -/
def Op.run : Op → matrix → Rng → Option (matrix × Rng)
  | .add_drop row col layer, mat, rng => mat_add_drop mat row col (layer.tag : Int) rng
  | .update layer, mat, rng => mat_update mat layer.tag rng
  | .rain, mat, rng => mat_rain mat rng

/-- The effect of a sequence of completed calls, first call first. -/
def run_ops : List Op → matrix → Rng → Option (matrix × Rng)
  | [], mat, rng => some (mat, rng)
  | op :: ops, mat, rng => do
    let s ← op.run mat rng
    run_ops ops s.1 s.2

/-- A well-formed grid with at least one cell whose `char_count` is the number of
non-blank foreground glyphs plus the number of non-blank background glyphs. -/
def Counted (m : matrix) : Prop :=
  Grid m ∧ 0 < m.rows ∧ 0 < m.cols ∧
  m.char_count = layer_count m LAYER_FG + layer_count m LAYER_BG

/-! ## Options and the driver loop -/

/-- Density of factor 1, `DROPS_BASE_VALUE 0.001`, as an exact rational. -/
def DROPS_BASE_VALUE : ℚ := 1 / 1000

/-- Smallest density factor, `DROPS_FACTOR_MIN 1`. -/
def DROPS_FACTOR_MIN : Nat := 1

/-- Largest density factor, `DROPS_FACTOR_MAX 100`. -/
def DROPS_FACTOR_MAX : Nat := 100

/-- Default density factor, `DROPS_FACTOR_DEF 10`. -/
def DROPS_FACTOR_DEF : Nat := 10

/-- Smallest speed factor, `SPEED_FACTOR_MIN 1`. -/
def SPEED_FACTOR_MIN : Nat := 1

/-- Largest speed factor, `SPEED_FACTOR_MAX 100`. -/
def SPEED_FACTOR_MAX : Nat := 100

/-- Default speed factor, `SPEED_FACTOR_DEF 10`. -/
def SPEED_FACTOR_DEF : Nat := 10

/-- Source function `clamp_uint8`: the value `*val` holds after the call. -/
def clamp_uint8 (val min max : Nat) : Nat :=
  if val < min then min
  else if val > max then max
  else val

/-- The density factor `main` works with, from the parsed `opts.drops`:
`if (opts.drops == 0) opts.drops = DROPS_FACTOR_DEF;` and then
`clamp_uint8(&opts.drops, DROPS_FACTOR_MIN, DROPS_FACTOR_MAX);` -/
def main_drops (drops : Nat) : Nat :=
  clamp_uint8 (if drops = 0 then DROPS_FACTOR_DEF else drops) DROPS_FACTOR_MIN DROPS_FACTOR_MAX

/-- The speed factor `main` works with, from the parsed `opts.speed`:
`if (opts.speed == 0) opts.speed = SPEED_FACTOR_DEF;` and then
`clamp_uint8(&opts.speed, SPEED_FACTOR_MIN, SPEED_FACTOR_MAX);` -/
def main_speed (speed : Nat) : Nat :=
  clamp_uint8 (if speed = 0 then SPEED_FACTOR_DEF else speed) SPEED_FACTOR_MIN SPEED_FACTOR_MAX

/-- Source line `float drops_ratio = DROPS_BASE_VALUE * opts.drops;` of `main`, computed
exactly, for the parsed `opts.drops`. -/
def main_drops_ratio (drops : Nat) : ℚ :=
  DROPS_BASE_VALUE * (main_drops drops : ℚ)

/-- One iteration of the `while (running)` loop of `main`, as a step on the variable
`layer`: the layers for which `mat_update` is called, in the order of the calls, and the
value of `layer` after `layer = layer == LAYER_FG ? LAYER_BG : LAYER_FG;` -/
def main_iteration (layer : Nat) : List Nat × Nat :=
  ([LAYER_FG] ++ (if layer = LAYER_BG then [LAYER_BG] else []),
   if layer = LAYER_FG then LAYER_BG else LAYER_FG)

/-- The value of `layer` at the start of iteration `k + 1` of the loop of `main`
(`uint8_t layer = LAYER_FG;` before the loop). -/
def main_layer : Nat → Nat
  | 0 => LAYER_FG
  | k + 1 => (main_iteration (main_layer k)).2

/-- The `mat_update` calls of iteration `n` of the loop of `main`, the first iteration
being `n = 1`. -/
def main_updates (n : Nat) : List Nat :=
  (main_iteration (main_layer (n - 1))).1

/-! ## Printing -/

/-- Colour of the foreground layer, `COLOR_FG_0`. -/
def COLOR_FG_0 : String := "\x1b[38;5;15m"

/-- Colour of the background layer, `COLOR_FG_1`. -/
def COLOR_FG_1 : String := "\x1b[38;5;249m"

/-- Bold font, `ANSI_FONT_BOLD`. -/
def ANSI_FONT_BOLD : String := "\x1b[1m"

/-- Normal font, `ANSI_FONT_NORMAL`. -/
def ANSI_FONT_NORMAL : String := "\x1b[22m"

/-- The table `static char *colors[]`. -/
def colors : List String := [COLOR_FG_0, COLOR_FG_1]

/-- What a call writes to `stdout`. -/
inductive Out where
  /-- a call `fputs(s, stdout)` -/
  | puts (s : String)
  /-- a call `fputc(c, stdout)` -/
  | putc (c : Nat)
  /-- a call `fflush(stdout)` -/
  | flush
deriving DecidableEq

/-- Whether an output item is a character written by `fputc`. -/
def Out.is_putc : Out → Bool
  | .putc _ => true
  | _ => false

/-- The `for (int i = 0; i < size; ++i)` loop of `mat_print` with `n` iterations left,
`i` the current index and `out` what has been written so far.  A read outside the block
or outside one of the tables is `none`. -/
def mat_print_loop (mat : matrix) : Nat → Int → List Out → Option (List Out)
  | 0, _, out => some out
  | n + 1, i, out => do
    let value ← mem_read mat.data i
    let fg := val_get_fg value
    let bg := val_get_bg value
    if fg ≠ 0 then do
      let color ← colors[0]?
      let glyph ← glyphs[fg]?
      mat_print_loop mat n (i + 1)
        (out ++ [Out.puts color, Out.puts ANSI_FONT_BOLD, Out.putc glyph])
    else if bg ≠ 0 then do
      let color ← colors[1]?
      let glyph ← glyphs[bg]?
      mat_print_loop mat n (i + 1)
        (out ++ [Out.puts color, Out.puts ANSI_FONT_NORMAL, Out.putc glyph])
    else do
      let glyph ← glyphs[0]?
      mat_print_loop mat n (i + 1) (out ++ [Out.putc glyph])

/-- Source line `size_t size = mat->cols * mat->rows;` of `mat_print`. -/
def mat_print_size (mat : matrix) : Nat :=
  (wrap32 ((mat.cols : Int) * (mat.rows : Int)) % (SIZE_MOD : Int)).toNat

/-- Source function `mat_print`: what it writes to `stdout`.  The function only reads
the grid. -/
def mat_print (mat : matrix) : Option (List Out) := do
  let out ← mat_print_loop mat (mat_print_size mat) 0 []
  pure (out ++ [Out.flush])

/-- What the sentence on the render priority has emitted for one cell with foreground
index `fg` and background index `bg`: the foreground glyph in the foreground colour when
`fg` is not 0, else the background glyph in the background colour when `bg` is not 0,
else the blank glyph. -/
def render_cell (fg bg : Nat) : List Out :=
  if fg ≠ 0 then [Out.puts COLOR_FG_0, Out.puts ANSI_FONT_BOLD, Out.putc (glyphs.getD fg 0)]
  else if bg ≠ 0 then
    [Out.puts COLOR_FG_1, Out.puts ANSI_FONT_NORMAL, Out.putc (glyphs.getD bg 0)]
  else [Out.putc (glyphs.getD 0 0)]

/-- Every glyph index of the grid, on both layers, is an index of the palette. -/
def Palette (m : matrix) : Prop :=
  ∀ i, i < m.rows * m.cols →
    get_layer (m.data.getD i 0) LAYER_FG < NUM_GLYPHS ∧
    get_layer (m.data.getD i 0) LAYER_BG < NUM_GLYPHS

instance (m : matrix) : Decidable (Palette m) := by
  unfold Palette; infer_instance

/-! ## Loops with a record of what they did -/

/-- The fall loop of `mat_update` (see `mat_update_fall`), returning whether one of its
subtractions `mat->char_count -= mat_mov_col(mat, col, layer)` wrapped below 0, that is
whether `char_count` was smaller than the value subtracted from it. -/
def mat_update_fall_wraps (layer : Nat) : Nat → Nat → matrix → Option Bool
  | 0, _, _ => some false
  | n + 1, col, mat => do
    let r ← mat_mov_col mat (col : Int) layer
    let rest ← mat_update_fall_wraps layer n (col + 1)
      { r.2 with char_count := (r.2.char_count + SIZE_MOD - r.1) % SIZE_MOD }
    pure (decide (r.2.char_count < r.1) || rest)

set_option maxRecDepth 100000 in
theorem codec_fg_table : ∀ c < 256, ∀ v < 16,
    val_get_fg (val_new v (val_get_bg c)) = v ∧
    val_get_bg (val_new v (val_get_bg c)) = val_get_bg c ∧
    val_new v (val_get_bg c) < 256 := by
  decide

set_option maxRecDepth 100000 in
theorem codec_bg_table : ∀ c < 256, ∀ v < 16,
    val_get_bg (val_new (val_get_fg c) v) = v ∧
    val_get_fg (val_new (val_get_fg c) v) = val_get_fg c ∧
    val_new (val_get_fg c) v < 256 := by
  decide

set_option maxRecDepth 100000 in
theorem val_get_lt_table : ∀ c < 256, val_get_fg c < 16 ∧ val_get_bg c < 16 := by
  decide

theorem get_layer_lt {v : Nat} (hv : v < 256) (L : Nat) : get_layer v L < 16 := by
  unfold get_layer
  have h := val_get_lt_table v hv
  split
  · exact h.1
  · split
    · exact h.2
    · decide

theorem put_layer_lt {v g L : Nat} (hv : v < 256) (hg : g < 16) : put_layer v g L < 256 := by
  unfold put_layer
  split
  · exact (codec_fg_table v hv g hg).2.2
  · exact (codec_bg_table v hv g hg).2.2

theorem get_put_layer {v g L L' : Nat} (hv : v < 256) (hg : g < 16)
    (hL : L = LAYER_FG ∨ L = LAYER_BG) (hL' : L' = LAYER_FG ∨ L' = LAYER_BG) :
    get_layer (put_layer v g L) L' = if L' = L then g else get_layer v L' := by
  have hf := codec_fg_table v hv g hg
  have hb := codec_bg_table v hv g hg
  rcases hL with rfl | rfl <;> rcases hL' with rfl | rfl <;>
    simp [get_layer, put_layer, LAYER_FG, LAYER_BG] <;>
    simp [hf.1, hf.2.1, hb.1, hb.2.1]

/-! ## Index arithmetic and single accesses -/

theorem wrap32_of_lt {x : Int} (h0 : 0 ≤ x) (h1 : x < 2 ^ 31) : wrap32 x = x := by
  unfold wrap32; omega

theorem idx_lt {m : matrix} {r c : Nat} (hr : r < m.rows) (hc : c < m.cols) :
    r * m.cols + c < m.rows * m.cols := by
  calc r * m.cols + c < r * m.cols + m.cols := by omega
    _ = (r + 1) * m.cols := by ring
    _ ≤ m.rows * m.cols := Nat.mul_le_mul_right _ hr

theorem mat_idx_inb {m : matrix} (hG : Grid m) {r c : Nat} (hr : r < m.rows)
    (hc : c < m.cols) : mat_idx m (r : Int) (c : Int) = ((r * m.cols + c : Nat) : Int) := by
  have h := idx_lt hr hc
  have h31 := hG.2.2.1
  unfold mat_idx
  rw [wrap32_of_lt] <;> push_cast <;> first | rfl | positivity | skip
  have : ((r * m.cols + c : Nat) : Int) < 2 ^ 31 := by exact_mod_cast lt_trans h h31
  push_cast at this; exact this

theorem getElem?_eq_some_getD {l : List Nat} {i : Nat} (h : i < l.length) :
    l[i]? = some (l.getD i 0) := by
  simp [List.getD, List.getElem?_eq_getElem h]

theorem getD_set (l : List Nat) (i j v : Nat) :
    (l.set i v).getD j 0 = if i = j ∧ i < l.length then v else l.getD j 0 := by
  simp only [List.getD_eq_getElem?_getD, List.getElem?_set]
  by_cases hij : i = j
  · subst hij
    by_cases hi : i < l.length
    · simp [hi]
    · simp [hi, List.getElem?_eq_none (Nat.le_of_not_lt hi)]
  · simp [hij]

theorem mat_get_value_inb {m : matrix} (hG : Grid m) {r c : Nat} (hr : r < m.rows)
    (hc : c < m.cols) :
    mat_get_value m (r : Int) (c : Int) = some (m.data.getD (r * m.cols + c) 0) := by
  have h := lt_of_lt_of_le (idx_lt hr hc) hG.2.2.2.1
  unfold mat_get_value
  rw [if_neg (by omega), if_neg (by omega), mat_idx_inb hG hr hc]
  unfold mem_read
  rw [if_neg (by omega)]
  simpa using getElem?_eq_some_getD h

theorem mat_get_glyph_inb {m : matrix} (hG : Grid m) {r c : Nat} (hr : r < m.rows)
    (hc : c < m.cols) (L : Nat) :
    mat_get_glyph m (r : Int) (c : Int) L
      = some (get_layer (m.data.getD (r * m.cols + c) 0) L) := by
  unfold mat_get_glyph get_layer
  rw [mat_get_value_inb hG hr hc]
  split
  · rfl
  · split <;> rfl

theorem mat_set_value_inb {m : matrix} (hG : Grid m) {r c : Nat} (hr : r < m.rows)
    (hc : c < m.cols) (v : Nat) :
    mat_set_value m (r : Int) (c : Int) v
      = some (v, { m with data := m.data.set (r * m.cols + c) v }) := by
  have h := lt_of_lt_of_le (idx_lt hr hc) hG.2.2.2.1
  unfold mat_set_value
  rw [if_neg (by omega), if_neg (by omega), mat_idx_inb hG hr hc]
  unfold mem_write
  rw [if_neg (by omega), Int.toNat_ofNat, if_pos h]
  rfl

theorem mat_get_value_oob (m : matrix) {row col : Int}
    (h : (m.rows : Int) ≤ row ∨ (m.cols : Int) ≤ col) : mat_get_value m row col = some 0 := by
  unfold mat_get_value
  by_cases h1 : (m.rows : Int) ≤ row
  · rw [if_pos h1]
  · rw [if_neg h1, if_pos (h.resolve_left h1)]

theorem mat_set_value_oob (m : matrix) {row col : Int} (v : Nat)
    (h : (m.rows : Int) ≤ row ∨ (m.cols : Int) ≤ col) :
    mat_set_value m row col v = some (0, m) := by
  unfold mat_set_value
  by_cases h1 : (m.rows : Int) ≤ row
  · rw [if_pos h1]
  · rw [if_neg h1, if_pos (h.resolve_left h1)]

theorem mat_get_glyph_oob (m : matrix) {row col : Int} (L : Nat)
    (h : (m.rows : Int) ≤ row ∨ (m.cols : Int) ≤ col) : mat_get_glyph m row col L = some 0 := by
  unfold mat_get_glyph
  rw [mat_get_value_oob m h]
  split
  · rfl
  · split <;> rfl

theorem mat_set_glyph_oob (m : matrix) {row col : Int} (g L : Nat)
    (h : (m.rows : Int) ≤ row ∨ (m.cols : Int) ≤ col) :
    mat_set_glyph m row col g L = some m := by
  unfold mat_set_glyph mat_get_bg mat_get_fg
  by_cases h1 : L &&& LAYER_FG ≠ 0 <;> by_cases h2 : L &&& LAYER_BG ≠ 0 <;>
    simp [h1, h2, mat_get_value_oob m h, mat_set_value_oob m _ h]

theorem mat_set_glyph_inb {m : matrix} (hG : Grid m) {r c : Nat} (hr : r < m.rows)
    (hc : c < m.cols) (g : Nat) {L : Nat} (hL : L = LAYER_FG ∨ L = LAYER_BG) :
    mat_set_glyph m (r : Int) (c : Int) g L
      = some { m with data := (m.data.set (r * m.cols + c)
                (put_layer (m.data.getD (r * m.cols + c) 0) g L)) } := by
  unfold mat_set_glyph mat_get_bg mat_get_fg
  rcases hL with rfl | rfl
  · simp [LAYER_FG, LAYER_BG, mat_get_value_inb hG hr hc, mat_set_value_inb hG hr hc,
      put_layer]
  · simp [LAYER_FG, LAYER_BG, mat_get_value_inb hG hr hc, mat_set_value_inb hG hr hc,
      put_layer]

/-! ## Lists of bytes -/

theorem Grid_with_data {m : matrix} (hG : Grid m) {d : List Nat}
    (hlen : d.length = m.data.length) (hb : ∀ b ∈ d, b < 256) :
    Grid { m with data := d } :=
  ⟨hG.1, hG.2.1, hG.2.2.1, by simpa [hlen] using hG.2.2.2.1, hb, hG.2.2.2.2.2⟩

theorem bytes_set {l : List Nat} (hb : ∀ b ∈ l, b < 256) (i : Nat) {v : Nat} (hv : v < 256) :
    ∀ b ∈ l.set i v, b < 256 := by
  intro b hmem
  rcases List.mem_or_eq_of_mem_set hmem with h | h
  · exact hb b h
  · exact h ▸ hv

theorem bytes_getD {l : List Nat} (hb : ∀ b ∈ l, b < 256) (i : Nat) : l.getD i 0 < 256 := by
  by_cases h : i < l.length
  · rw [List.getD_eq_getElem l 0 h]
    exact hb _ (List.getElem_mem h)
  · rw [List.getD_eq_default l 0 (Nat.le_of_not_lt h)]
    decide

theorem countP_take_set (p : Nat → Bool) :
    ∀ (l : List Nat) (i n v : Nat), i < n → n ≤ l.length →
      ((l.set i v).take n).countP p + (if p (l.getD i 0) then 1 else 0)
        = (l.take n).countP p + (if p v then 1 else 0)
  | [], i, n, v, hi, hn => by simp at hn; omega
  | a :: t, 0, n + 1, v, _, _ => by
    simp only [List.set_cons_zero, List.take_succ_cons, List.countP_cons, List.getD_cons_zero]
    omega
  | a :: t, i + 1, n + 1, v, hi, hn => by
    have ih := countP_take_set p t i n v (by omega) (by simpa using hn)
    simp only [List.set_cons_succ, List.take_succ_cons, List.countP_cons, List.getD_cons_succ]
    omega

theorem countP_take_congr (p q : Nat → Bool) (n : Nat) :
    ∀ (l l' : List Nat), l.length = l'.length →
      (∀ i, p (l.getD i 0) = q (l'.getD i 0)) →
      (l.take n).countP p = (l'.take n).countP q := by
  induction n with
  | zero => intro l l' _ _; simp
  | succ n ih =>
    intro l l' hlen h
    match l, l' with
    | [], [] => simp
    | [], _ :: _ => simp at hlen
    | _ :: _, [] => simp at hlen
    | a :: t, b :: u =>
      have h0 := h 0
      simp only [List.getD_cons_zero] at h0
      have ht := ih t u (by simpa using hlen) (fun i => by simpa using h (i + 1))
      simp only [List.take_succ_cons, List.countP_cons, ht, h0]

/-! ## One column falls -/

theorem countP_take_set_prop (p : Nat → Prop) [DecidablePred p] (l : List Nat) (i n v : Nat)
    (hi : i < n) (hn : n ≤ l.length) :
    ((l.set i v).take n).countP (fun x => decide (p x)) + (if p (l.getD i 0) then 1 else 0)
      = (l.take n).countP (fun x => decide (p x)) + (if p v then 1 else 0) := by
  simpa using countP_take_set (fun x => decide (p x)) l i n v hi hn

theorem idx_mod {cols c : Nat} (r : Nat) (hc : c < cols) : (r * cols + c) % cols = c := by
  rw [Nat.add_comm, Nat.add_mul_mod_self_right, Nat.mod_eq_of_lt hc]

theorem mat_mov_col_loop_spec {m : matrix} (hG : Grid m) {c L : Nat} (hc : c < m.cols)
    (hL : L = LAYER_FG ∨ L = LAYER_BG) :
    ∀ (n : Nat) (d : List Nat), d.length = m.data.length → (∀ b ∈ d, b < 256) →
      n ≤ m.rows → (n < m.rows → get_layer (d.getD (n * m.cols + c) 0) L = 0) →
      ∃ d', mat_mov_col_loop (c : Int) L n { m with data := d } = some { m with data := d' } ∧
        d'.length = d.length ∧ (∀ b ∈ d', b < 256) ∧
        (∀ i, i % m.cols ≠ c → d'.getD i 0 = d.getD i 0) ∧
        (∀ i, n * m.cols + c < i → d'.getD i 0 = d.getD i 0) ∧
        (∀ i L', (L' = LAYER_FG ∨ L' = LAYER_BG) → L' ≠ L →
          get_layer (d'.getD i 0) L' = get_layer (d.getD i 0) L') ∧
        (∀ r, r < n → r + 1 < m.rows →
          get_layer (d'.getD ((r + 1) * m.cols + c) 0) L
            = get_layer (d.getD (r * m.cols + c) 0) L) ∧
        (0 < m.rows → get_layer (d'.getD c 0) L = 0) ∧
        (d'.take (m.rows * m.cols)).countP (fun v => get_layer v L ≠ 0)
          + (if n = m.rows ∧ 0 < n ∧ get_layer (d.getD ((n - 1) * m.cols + c) 0) L ≠ 0
              then 1 else 0)
          = (d.take (m.rows * m.cols)).countP (fun v => get_layer v L ≠ 0) := by
  intro n
  induction n with
  | zero =>
    intro d hlen hb _ h0
    refine ⟨d, rfl, rfl, hb, fun _ _ => rfl, fun _ _ => rfl, fun _ _ _ _ => rfl, ?_, ?_, ?_⟩
    · intro r hr; omega
    · intro hrows; simpa using h0 hrows
    · simp
  | succ n ih =>
    intro d hlen hb hn hpre
    have hG0 : Grid { m with data := d } := Grid_with_data hG hlen hb
    have hnr : n < m.rows := hn
    have hget := mat_get_glyph_inb hG0 (r := n) (c := c) hnr hc L
    dsimp only at hget
    have hsm : (n + 1) * m.cols = n * m.cols + m.cols := Nat.succ_mul _ _
    have hi0 : n * m.cols + c < d.length := by
      have := idx_lt hnr hc
      have := hG.2.2.2.1
      omega
    rw [mat_mov_col_loop]
    simp only [hget, Option.bind_eq_bind, Option.some_bind]
    generalize hg : get_layer (d.getD (n * m.cols + c) 0) L = g at *
    have hg16 : g < 16 := hg ▸ get_layer_lt (bytes_getD hb _) L
    by_cases hg0 : g = 0
    · rw [if_neg (by simpa using hg0)]
      obtain ⟨d', hrun, hlen', hb', hF1, hF2, hF3, hS, hZ, hC⟩ :=
        ih d hlen hb (by omega) (fun _ => hg ▸ hg0)
      refine ⟨d', hrun, hlen', hb', hF1, ?_, hF3, ?_, hZ, ?_⟩
      · intro i hi; exact hF2 i (by omega)
      · intro r hr hr1
        rcases Nat.lt_succ_iff_lt_or_eq.mp hr with h | h
        · exact hS r h hr1
        · subst h
          rw [hF2 _ (by omega), hpre hr1, hg, hg0]
      · rw [if_neg (by omega)] at hC
        rw [if_neg (fun h => h.2.2 (by rw [Nat.add_sub_cancel, hg, hg0]))]
        exact hC
    · rw [if_pos hg0]
      have hcast : ((n : Int) + 1) = ((n + 1 : Nat) : Int) := by push_cast; rfl
      rw [hcast]
      by_cases hlast : n + 1 < m.rows
      · -- the glyph moves to row `n + 1` of the grid
        have hi1 : (n + 1) * m.cols + c < d.length := by
          have := idx_lt hlast hc
          have := hG.2.2.2.1
          omega
        have hN1 : (n + 1) * m.cols + c < m.rows * m.cols := idx_lt hlast hc
        have hN0 : n * m.cols + c < m.rows * m.cols := idx_lt hnr hc
        rw [mat_set_glyph_inb hG0 hlast hc g hL]
        dsimp only
        simp only [Option.some_bind]
        generalize hd1 : d.set ((n + 1) * m.cols + c)
          (put_layer (d.getD ((n + 1) * m.cols + c) 0) g L) = d1
        have hlen1 : d1.length = m.data.length := by rw [← hd1, List.length_set, hlen]
        have hb1 : ∀ b ∈ d1, b < 256 :=
          hd1 ▸ bytes_set hb _ (put_layer_lt (bytes_getD hb _) hg16)
        have hG1 : Grid { m with data := d1 } := Grid_with_data hG hlen1 hb1
        rw [mat_set_glyph_inb hG1 hnr hc 0 hL]
        dsimp only
        simp only [Option.some_bind]
        generalize hd2 : d1.set (n * m.cols + c)
          (put_layer (d1.getD (n * m.cols + c) 0) 0 L) = d2
        have hlen2 : d2.length = m.data.length := by rw [← hd2, List.length_set, hlen1]
        have hb2 : ∀ b ∈ d2, b < 256 :=
          hd2 ▸ bytes_set hb1 _ (put_layer_lt (bytes_getD hb1 _) (by decide))
        have hd2get : ∀ i, d2.getD i 0 =
            if i = n * m.cols + c then put_layer (d.getD (n * m.cols + c) 0) 0 L
            else if i = (n + 1) * m.cols + c then
              put_layer (d.getD ((n + 1) * m.cols + c) 0) g L
            else d.getD i 0 := by
          intro i
          have hne : (n + 1) * m.cols + c ≠ n * m.cols + c := by omega
          rw [← hd2, getD_set]
          by_cases h0 : i = n * m.cols + c
          · rw [if_pos ⟨h0.symm, by rw [hlen1, ← hlen]; exact hi0⟩, if_pos h0]
            congr 1
            rw [← hd1, getD_set, if_neg (fun h => hne h.1)]
          · rw [if_neg (fun h => h0 h.1.symm), if_neg h0, ← hd1, getD_set]
            by_cases h1 : i = (n + 1) * m.cols + c
            · rw [if_pos ⟨h1.symm, hi1⟩, if_pos h1]
            · rw [if_neg (fun h => h1 h.1.symm), if_neg h1]
        have hpre2 : get_layer (d2.getD (n * m.cols + c) 0) L = 0 := by
          rw [hd2get, if_pos rfl, get_put_layer (bytes_getD hb _) (by decide) hL hL, if_pos rfl]
        obtain ⟨d', hrun, hlen', hb', hF1, hF2, hF3, hS, hZ, hC⟩ :=
          ih d2 hlen2 hb2 (by omega) (fun _ => hpre2)
        refine ⟨d', hrun, by rw [hlen', hlen2, hlen], hb', ?_, ?_, ?_, ?_, hZ, ?_⟩
        · intro i hi
          rw [hF1 i hi, hd2get, if_neg, if_neg]
          · intro h; exact hi (h ▸ idx_mod (n + 1) hc)
          · intro h; exact hi (h ▸ idx_mod n hc)
        · intro i hi
          rw [hF2 i (by omega), hd2get, if_neg (by omega), if_neg (by omega)]
        · intro i L' hL' hne
          rw [hF3 i L' hL' hne, hd2get]
          split
          · rename_i h; subst h
            rw [get_put_layer (bytes_getD hb _) (by decide) hL hL', if_neg hne]
          · split
            · rename_i h; subst h
              rw [get_put_layer (bytes_getD hb _) hg16 hL hL', if_neg hne]
            · rfl
        · intro r hr hr1
          rcases Nat.lt_succ_iff_lt_or_eq.mp hr with h | h
          · rw [hS r h hr1, hd2get]
            have hlt : r * m.cols + c < n * m.cols + c := by
              have := Nat.mul_le_mul_right m.cols (Nat.succ_le_of_lt h)
              have := Nat.succ_mul r m.cols
              simp only [Nat.succ_eq_add_one] at *
              omega
            rw [if_neg (by omega), if_neg (by omega)]
          · subst h
            rw [hF2 _ (by omega), hd2get, if_neg (by omega), if_pos rfl,
              get_put_layer (bytes_getD hb _) hg16 hL hL, if_pos rfl, hg]
        · rw [if_neg (by omega)] at hC
          rw [if_neg (by omega)]
          have c1 := countP_take_set_prop (fun v => get_layer v L ≠ 0) d
            ((n + 1) * m.cols + c) (m.rows * m.cols)
            (put_layer (d.getD ((n + 1) * m.cols + c) 0) g L) hN1
            (by rw [hlen]; exact hG.2.2.2.1)
          have c2 := countP_take_set_prop (fun v => get_layer v L ≠ 0) d1
            (n * m.cols + c) (m.rows * m.cols)
            (put_layer (d1.getD (n * m.cols + c) 0) 0 L) hN0
            (by rw [hlen1]; exact hG.2.2.2.1)
          rw [hd1] at c1
          rw [hd2] at c2
          have e1 : d1.getD (n * m.cols + c) 0 = d.getD (n * m.cols + c) 0 := by
            rw [← hd1, getD_set, if_neg (by omega)]
          rw [e1] at c2
          dsimp only at c1 c2
          rw [get_put_layer (bytes_getD hb _) hg16 hL hL, if_pos rfl, hpre hlast,
            if_neg (by simp), if_pos hg0] at c1
          rw [get_put_layer (bytes_getD hb _) (by decide : (0:Nat) < 16) hL hL, if_pos rfl,
            hg, if_pos hg0, if_neg (by simp)] at c2
          omega
      · -- the glyph is in the bottom row and leaves the grid
        have hrows : n + 1 = m.rows := by omega
        have hN0 : n * m.cols + c < m.rows * m.cols := idx_lt hnr hc
        rw [mat_set_glyph_oob _ g L (Or.inl (by simp only [Nat.cast_le]; omega))]
        simp only [Option.some_bind]
        rw [mat_set_glyph_inb hG0 hnr hc 0 hL]
        dsimp only
        generalize hd2 : d.set (n * m.cols + c)
          (put_layer (d.getD (n * m.cols + c) 0) 0 L) = d2
        have hlen2 : d2.length = m.data.length := by rw [← hd2, List.length_set, hlen]
        have hb2 : ∀ b ∈ d2, b < 256 :=
          hd2 ▸ bytes_set hb _ (put_layer_lt (bytes_getD hb _) (by decide))
        have hd2get : ∀ i, d2.getD i 0 =
            if i = n * m.cols + c then put_layer (d.getD (n * m.cols + c) 0) 0 L
            else d.getD i 0 := by
          intro i
          rw [← hd2, getD_set]
          by_cases h0 : i = n * m.cols + c
          · rw [if_pos ⟨h0.symm, hi0⟩, if_pos h0]
          · rw [if_neg (fun h => h0 h.1.symm), if_neg h0]
        have hpre2 : get_layer (d2.getD (n * m.cols + c) 0) L = 0 := by
          rw [hd2get, if_pos rfl, get_put_layer (bytes_getD hb _) (by decide) hL hL, if_pos rfl]
        obtain ⟨d', hrun, hlen', hb', hF1, hF2, hF3, hS, hZ, hC⟩ :=
          ih d2 hlen2 hb2 (by omega) (fun _ => hpre2)
        refine ⟨d', hrun, by rw [hlen', hlen2, hlen], hb', ?_, ?_, ?_, ?_, hZ, ?_⟩
        · intro i hi
          rw [hF1 i hi, hd2get, if_neg]
          intro h; exact hi (h ▸ idx_mod n hc)
        · intro i hi
          rw [hF2 i (by omega), hd2get, if_neg (by omega)]
        · intro i L' hL' hne
          rw [hF3 i L' hL' hne, hd2get]
          split
          · rename_i h; subst h
            rw [get_put_layer (bytes_getD hb _) (by decide) hL hL', if_neg hne]
          · rfl
        · intro r hr hr1
          rcases Nat.lt_succ_iff_lt_or_eq.mp hr with h | h
          · rw [hS r h hr1, hd2get]
            have hlt : r * m.cols + c < n * m.cols + c := by
              have := Nat.mul_le_mul_right m.cols (Nat.succ_le_of_lt h)
              have := Nat.succ_mul r m.cols
              simp only [Nat.succ_eq_add_one] at *
              omega
            rw [if_neg (by omega)]
          · omega
        · rw [if_neg (by omega)] at hC
          rw [if_pos ⟨hrows, Nat.succ_pos n, by rw [Nat.add_sub_cancel, hg]; exact hg0⟩]
          have c2 := countP_take_set_prop (fun v => get_layer v L ≠ 0) d
            (n * m.cols + c) (m.rows * m.cols)
            (put_layer (d.getD (n * m.cols + c) 0) 0 L) hN0
            (by rw [hlen]; exact hG.2.2.2.1)
          rw [hd2] at c2
          dsimp only at c2
          rw [get_put_layer (bytes_getD hb _) (by decide : (0:Nat) < 16) hL hL, if_pos rfl,
            hg, if_pos hg0, if_neg (by simp)] at c2
          omega

theorem mat_mov_col_spec {m : matrix} (hG : Grid m) (hrows : 0 < m.rows) {c L : Nat}
    (hc : c < m.cols) (hL : L = LAYER_FG ∨ L = LAYER_BG) :
    ∃ d', mat_mov_col m (c : Int) L
        = some (if get_layer (m.data.getD ((m.rows - 1) * m.cols + c) 0) L ≠ 0 then 1 else 0,
                { m with data := d' }) ∧
      d'.length = m.data.length ∧ (∀ b ∈ d', b < 256) ∧
      (∀ i, i % m.cols ≠ c → d'.getD i 0 = m.data.getD i 0) ∧
      (∀ i L', (L' = LAYER_FG ∨ L' = LAYER_BG) → L' ≠ L →
        get_layer (d'.getD i 0) L' = get_layer (m.data.getD i 0) L') ∧
      (∀ r, r + 1 < m.rows →
        get_layer (d'.getD ((r + 1) * m.cols + c) 0) L
          = get_layer (m.data.getD (r * m.cols + c) 0) L) ∧
      get_layer (d'.getD c 0) L = 0 ∧
      (d'.take (m.rows * m.cols)).countP (fun v => get_layer v L ≠ 0)
        + (if get_layer (m.data.getD ((m.rows - 1) * m.cols + c) 0) L ≠ 0 then 1 else 0)
        = (m.data.take (m.rows * m.cols)).countP (fun v => get_layer v L ≠ 0) := by
  obtain ⟨d', hrun, hlen', hb', hF1, _, hF3, hS, hZ, hC⟩ :=
    mat_mov_col_loop_spec hG hc hL m.rows m.data rfl hG.2.2.2.2.1 (le_refl _)
      (fun h => absurd h (lt_irrefl _))
  refine ⟨d', ?_, hlen', hb', hF1, hF3, fun r hr => hS r (by omega) hr, hZ hrows, ?_⟩
  · have hcast : ((m.rows : Int) - 1) = ((m.rows - 1 : Nat) : Int) := by omega
    unfold mat_mov_col
    rw [hcast, mat_get_glyph_inb hG (by omega) hc L]
    simp only [Option.bind_eq_bind, Option.some_bind]
    have hrun2 : mat_mov_col_loop (c : Int) L m.rows m = some { m with data := d' } := hrun
    rw [hrun2]
    rfl
  · rw [← hC]
    congr 1
    by_cases h : get_layer (m.data.getD ((m.rows - 1) * m.cols + c) 0) L ≠ 0
    · rw [if_pos h, if_pos ⟨rfl, hrows, h⟩]
    · rw [if_neg h, if_neg (fun h2 => h h2.2.2)]

/-! ## Random draws -/

theorem rand_int_nat (lo n : Nat) (r : Nat) :
    rand_int (lo : Int) ((lo + n : Nat) : Int) r = ((lo + r % (n + 1) : Nat) : Int) := by
  unfold rand_int
  have h : (((lo + n : Nat) : Int) + 1) - (lo : Int) = ((n + 1 : Nat) : Int) := by
    push_cast; ring
  rw [h, ← Int.ofNat_tmod]
  push_cast; rfl

theorem to_uint8_nat {n : Nat} (h : n < 256) : to_uint8 (n : Int) = n := by
  unfold to_uint8; omega

theorem rand_glyph_eq (r : Nat) :
    to_uint8 (rand_int 1 ((NUM_GLYPHS : Int) - 1) r) = 1 + r % 6 := by
  have h := rand_int_nat 1 5 r
  have e : ((NUM_GLYPHS : Int) - 1) = ((1 + 5 : Nat) : Int) := by decide
  rw [e]
  simp only [Nat.cast_one] at h
  rw [h, to_uint8_nat (by omega)]

theorem to_uint8_layer {L : Nat} (hL : L = LAYER_FG ∨ L = LAYER_BG) : to_uint8 (L : Int) = L := by
  rcases hL with rfl | rfl <;> decide

theorem idx_inj {cols r c r' c' : Nat} (hc : c < cols) (hc' : c' < cols)
    (h : r' * cols + c' = r * cols + c) : r' = r ∧ c' = c := by
  have h1 : (r' * cols + c') % cols = (r * cols + c) % cols := by rw [h]
  rw [idx_mod r' hc', idx_mod r hc] at h1
  subst h1
  have h2 : r' * cols = r * cols := by omega
  exact ⟨Nat.eq_of_mul_eq_mul_right (by omega) h2, rfl⟩

/-- Data-level description of `mat_add_drop` at a cell of the grid. -/
theorem mat_add_drop_inb {m : matrix} (hG : Grid m) {r c L : Nat} (hr : r < m.rows)
    (hc : c < m.cols) (hL : L = LAYER_FG ∨ L = LAYER_BG) (rng : Rng) :
    mat_add_drop m (r : Int) (c : Int) (L : Int) rng =
      if get_layer (m.data.getD (r * m.cols + c) 0) L ≠ 0 then some (m, rng)
      else some ({ m with
        data := (m.data.set (r * m.cols + c)
          (put_layer (m.data.getD (r * m.cols + c) 0) (1 + rng 0 % 6) L)),
        char_count := (m.char_count + 1) % SIZE_MOD }, rng.next) := by
  unfold mat_add_drop
  rw [if_neg (by omega), if_neg (by omega), if_neg (by omega), if_neg (by omega),
    to_uint8_layer hL, mat_get_glyph_inb hG hr hc L, rand_glyph_eq]
  simp only [Option.bind_eq_bind, Option.some_bind, Option.pure_def]
  by_cases h : get_layer (m.data.getD (r * m.cols + c) 0) L ≠ 0
  · rw [if_pos h, if_pos h]
  · rw [if_neg h, if_neg h, mat_set_glyph_inb hG hr hc _ hL]
    rfl

theorem mat_add_drop_oob (m : matrix) {row col : Int} (layer : Int) (rng : Rng)
    (h : row < 0 ∨ (m.rows : Int) ≤ row ∨ col < 0 ∨ (m.cols : Int) ≤ col) :
    mat_add_drop m row col layer rng = some (m, rng) := by
  unfold mat_add_drop
  by_cases h1 : col < 0
  · rw [if_pos h1]
  · rw [if_neg h1]
    by_cases h2 : col ≥ (m.cols : Int)
    · rw [if_pos h2]
    · rw [if_neg h2]
      by_cases h3 : row < 0
      · rw [if_pos h3]
      · rw [if_neg h3]
        by_cases h4 : row ≥ (m.rows : Int)
        · rw [if_pos h4]
        · omega

/-! ## Codec round trip, the fall of one column, accesses past the end, drops -/

/-- C1 (codec round trip): for every cell byte `c` and every glyph index `v` in 0..15,
replacing the foreground of `c` by `v` as `mat_set_glyph` does (`val_new(v, val_get_bg(c))`)
decodes to `v` on the foreground and to the old background of `c` on the background, and
replacing the background (`val_new(val_get_fg(c), v)`) decodes to `v` on the background and
to the old foreground of `c` on the foreground. -/
theorem codec_round_trip (c v : Nat) (hc : c < 256) (hv : v < 16) :
    val_get_fg (val_new v (val_get_bg c)) = v ∧
    val_get_bg (val_new v (val_get_bg c)) = val_get_bg c ∧
    val_get_bg (val_new (val_get_fg c) v) = v ∧
    val_get_fg (val_new (val_get_fg c) v) = val_get_fg c :=
  ⟨(codec_fg_table c hc v hv).1, (codec_fg_table c hc v hv).2.1,
   (codec_bg_table c hc v hv).1, (codec_bg_table c hc v hv).2.1⟩

theorem codec_round_trip_witness :
    (0xA7 < 256 ∧ 5 < 16) ∧
    (val_get_fg (val_new 5 (val_get_bg 0xA7)) = 5 ∧
     val_get_bg (val_new 5 (val_get_bg 0xA7)) = val_get_bg 0xA7 ∧
     val_get_bg (val_new (val_get_fg 0xA7) 5) = 5 ∧
     val_get_fg (val_new (val_get_fg 0xA7) 5) = val_get_fg 0xA7) :=
  ⟨by decide, codec_round_trip 0xA7 5 (by decide) (by decide)⟩

/-- C2 (fall of one column): on a well-formed grid with at least one row, for a column
`col < cols` and a layer `L` of the two, `mat_mov_col(mat, col, L)` returns; it returns 1
if the bottom cell of the column was non-blank on `L` and 0 otherwise; afterwards the
dimensions, `char_count` and `char_ratio` are as before, the `L` glyph at `(0, col)` is 0,
the `L` glyph at `(r + 1, col)` is the one that was at `(r, col)`, the other layer of the
column is unchanged and every cell byte of every other column is unchanged. -/
theorem mat_mov_col_fall (m : matrix) (hG : Grid m) (hrows : 1 ≤ m.rows) (col L : Nat)
    (hc : col < m.cols) (hL : L = LAYER_FG ∨ L = LAYER_BG) :
    ∃ (g dropped : Nat) (m' : matrix),
      mat_get_glyph m ((m.rows : Int) - 1) (col : Int) L = some g ∧
      mat_mov_col m (col : Int) L = some (dropped, m') ∧
      dropped = (if g ≠ 0 then 1 else 0) ∧
      Grid m' ∧ m'.rows = m.rows ∧ m'.cols = m.cols ∧
      m'.char_count = m.char_count ∧ m'.char_ratio = m.char_ratio ∧
      mat_get_glyph m' 0 (col : Int) L = some 0 ∧
      (∀ r : Nat, r + 1 < m.rows → ∃ x,
        mat_get_glyph m (r : Int) (col : Int) L = some x ∧
        mat_get_glyph m' ((r + 1 : Nat) : Int) (col : Int) L = some x) ∧
      (∀ (r L' : Nat), r < m.rows → (L' = LAYER_FG ∨ L' = LAYER_BG) → L' ≠ L → ∃ x,
        mat_get_glyph m (r : Int) (col : Int) L' = some x ∧
        mat_get_glyph m' (r : Int) (col : Int) L' = some x) ∧
      (∀ r c : Nat, r < m.rows → c < m.cols → c ≠ col → ∃ x,
        mat_get_value m (r : Int) (c : Int) = some x ∧
        mat_get_value m' (r : Int) (c : Int) = some x) := by
  obtain ⟨d', hrun, hlen, hb, hF1, hF3, hS, hZ, _⟩ := mat_mov_col_spec hG hrows hc hL
  have hG' : Grid { m with data := d' } := Grid_with_data hG hlen hb
  have hcast : ((m.rows : Int) - 1) = ((m.rows - 1 : Nat) : Int) := by omega
  refine ⟨_, _, _, ?_, hrun, rfl, hG', rfl, rfl, rfl, rfl, ?_, ?_, ?_, ?_⟩
  · rw [hcast, mat_get_glyph_inb hG (by omega) hc L]
  · have h := mat_get_glyph_inb hG' (r := 0) (c := col) hrows hc L
    simp only [Nat.cast_zero, Nat.zero_mul, Nat.zero_add] at h
    rw [h, hZ]
  · intro r hr
    refine ⟨_, mat_get_glyph_inb hG (by omega) hc L, ?_⟩
    rw [mat_get_glyph_inb hG' hr hc L]
    exact congrArg some (hS r hr)
  · intro r L' hr hL' hne
    refine ⟨_, mat_get_glyph_inb hG hr hc L', ?_⟩
    rw [mat_get_glyph_inb hG' hr hc L']
    exact congrArg some (hF3 _ L' hL' hne)
  · intro r c hr hc' hne
    refine ⟨_, mat_get_value_inb hG hr hc', ?_⟩
    rw [mat_get_value_inb hG' hr hc']
    exact congrArg some (hF1 _ (by rw [idx_mod r hc']; exact hne))

theorem mat_mov_col_fall_witness :
    (Grid grid_3x2 ∧ 1 ≤ grid_3x2.rows ∧ 1 < grid_3x2.cols ∧
      (LAYER_FG = LAYER_FG ∨ LAYER_FG = LAYER_BG)) ∧
    ∃ (g dropped : Nat) (m' : matrix),
      mat_get_glyph grid_3x2 ((grid_3x2.rows : Int) - 1) ((1 : Nat) : Int) LAYER_FG = some g ∧
      mat_mov_col grid_3x2 ((1 : Nat) : Int) LAYER_FG = some (dropped, m') ∧
      dropped = (if g ≠ 0 then 1 else 0) ∧
      Grid m' ∧ m'.rows = grid_3x2.rows ∧ m'.cols = grid_3x2.cols ∧
      m'.char_count = grid_3x2.char_count ∧ m'.char_ratio = grid_3x2.char_ratio ∧
      mat_get_glyph m' 0 ((1 : Nat) : Int) LAYER_FG = some 0 ∧
      (∀ r : Nat, r + 1 < grid_3x2.rows → ∃ x,
        mat_get_glyph grid_3x2 (r : Int) ((1 : Nat) : Int) LAYER_FG = some x ∧
        mat_get_glyph m' ((r + 1 : Nat) : Int) ((1 : Nat) : Int) LAYER_FG = some x) ∧
      (∀ (r L' : Nat), r < grid_3x2.rows → (L' = LAYER_FG ∨ L' = LAYER_BG) → L' ≠ LAYER_FG →
        ∃ x, mat_get_glyph grid_3x2 (r : Int) ((1 : Nat) : Int) L' = some x ∧
        mat_get_glyph m' (r : Int) ((1 : Nat) : Int) L' = some x) ∧
      (∀ r c : Nat, r < grid_3x2.rows → c < grid_3x2.cols → c ≠ 1 → ∃ x,
        mat_get_value grid_3x2 (r : Int) (c : Int) = some x ∧
        mat_get_value m' (r : Int) (c : Int) = some x) :=
  ⟨by decide, mat_mov_col_fall grid_3x2 (by decide) (by decide) 1 LAYER_FG (by decide)
    (by decide)⟩


/-- C10 (one past the end): whenever `row >= rows` or `col >= cols` (in particular for
non-negative positions with `row == rows` or `col == cols`), `mat_get_value` and
`mat_get_glyph` on both layers return 0, `mat_set_value` returns 0, and `mat_set_value` and
`mat_set_glyph` leave the grid as it is.  The block is not indexed: the results are there
whatever the block holds, also for a grid whose block is empty, where every index is
outside the block. -/
theorem bounds_one_past_end (m : matrix) (row col : Int)
    (h : (m.rows : Int) ≤ row ∨ (m.cols : Int) ≤ col) (v g L : Nat) :
    mat_get_value m row col = some 0 ∧
    mat_get_glyph m row col LAYER_FG = some 0 ∧
    mat_get_glyph m row col LAYER_BG = some 0 ∧
    mat_set_value m row col v = some (0, m) ∧
    mat_set_glyph m row col g L = some m ∧
    mat_get_value { m with data := [] } row col = some 0 ∧
    mat_set_value { m with data := [] } row col v = some (0, { m with data := [] }) :=
  ⟨mat_get_value_oob m h, mat_get_glyph_oob m _ h, mat_get_glyph_oob m _ h,
   mat_set_value_oob m v h, mat_set_glyph_oob m g L h,
   mat_get_value_oob { m with data := [] } h, mat_set_value_oob { m with data := [] } v h⟩

theorem bounds_one_past_end_witness :
    ((grid_3x2.rows : Int) ≤ 3 ∨ (grid_3x2.cols : Int) ≤ 1) ∧
    (mat_get_value grid_3x2 3 1 = some 0 ∧
     mat_get_glyph grid_3x2 3 1 LAYER_FG = some 0 ∧
     mat_get_glyph grid_3x2 3 1 LAYER_BG = some 0 ∧
     mat_set_value grid_3x2 3 1 0x11 = some (0, grid_3x2) ∧
     mat_set_glyph grid_3x2 3 1 4 LAYER_BG = some grid_3x2 ∧
     mat_get_value { grid_3x2 with data := [] } 3 1 = some 0 ∧
     mat_set_value { grid_3x2 with data := [] } 3 1 0x11
       = some (0, { grid_3x2 with data := [] })) :=
  ⟨by decide, bounds_one_past_end grid_3x2 3 1 (by decide) 0x11 4 LAYER_BG⟩

theorem rand_glyph_ne_zero (r : Nat) : 1 + r % 6 ≠ 0 := by omega

theorem rand_glyph_lt (r : Nat) : 1 + r % 6 < 16 := by omega

/-- The grid `mat_add_drop` leaves when it places a drop is well formed. -/
theorem Grid_add_drop {m : matrix} (hG : Grid m) (i g L : Nat) (hg : g < 16) :
    Grid { m with
      data := (m.data.set i (put_layer (m.data.getD i 0) g L)),
      char_count := (m.char_count + 1) % SIZE_MOD } :=
  ⟨hG.1, hG.2.1, hG.2.2.1, by simpa using hG.2.2.2.1,
   bytes_set hG.2.2.2.2.1 _ (put_layer_lt (bytes_getD hG.2.2.2.2.1 _) hg),
   Nat.mod_lt _ (by decide)⟩

/-- C8 (single occupancy): on a well-formed grid, for a cell `(row, col)` of the grid, a
layer `L` of the two and all random streams, `mat_add_drop(mat, row, col, L)` returns, and
a second call on the grid it leaves, whatever the random stream then is, returns the same
grid (all cells, `char_count` and the other fields) and draws no random number. -/
theorem add_drop_twice (m : matrix) (hG : Grid m) (row col L : Nat) (hr : row < m.rows)
    (hc : col < m.cols) (hL : L = LAYER_FG ∨ L = LAYER_BG) (rng rng2 : Rng) :
    ∃ (m1 : matrix) (rng1 : Rng),
      mat_add_drop m (row : Int) (col : Int) (L : Int) rng = some (m1, rng1) ∧
      mat_add_drop m1 (row : Int) (col : Int) (L : Int) rng1 = some (m1, rng1) ∧
      mat_add_drop m1 (row : Int) (col : Int) (L : Int) rng2 = some (m1, rng2) := by
  rw [mat_add_drop_inb hG hr hc hL rng]
  by_cases h : get_layer (m.data.getD (row * m.cols + col) 0) L ≠ 0
  · rw [if_pos h]
    refine ⟨m, rng, rfl, ?_, ?_⟩ <;> rw [mat_add_drop_inb hG hr hc hL, if_pos h]
  · rw [if_neg h]
    have hG1 := Grid_add_drop hG (row * m.cols + col) (1 + rng 0 % 6) L (rand_glyph_lt _)
    have hi : row * m.cols + col < m.data.length :=
      lt_of_lt_of_le (idx_lt hr hc) hG.2.2.2.1
    have hne : get_layer ((m.data.set (row * m.cols + col)
        (put_layer (m.data.getD (row * m.cols + col) 0) (1 + rng 0 % 6) L)).getD
          (row * m.cols + col) 0) L ≠ 0 := by
      rw [getD_set, if_pos ⟨rfl, hi⟩,
        get_put_layer (bytes_getD hG.2.2.2.2.1 _) (rand_glyph_lt _) hL hL, if_pos rfl]
      exact rand_glyph_ne_zero _
    refine ⟨_, _, rfl, ?_, ?_⟩ <;>
    · rw [mat_add_drop_inb hG1 hr hc hL]
      exact if_pos hne

theorem add_drop_twice_witness :
    (Grid grid_3x2 ∧ 1 < grid_3x2.rows ∧ 1 < grid_3x2.cols ∧
      (LAYER_FG = LAYER_FG ∨ LAYER_FG = LAYER_BG)) ∧
    ∃ (m1 : matrix) (rng1 : Rng),
      mat_add_drop grid_3x2 ((1 : Nat) : Int) ((1 : Nat) : Int) (LAYER_FG : Int) (fun n => 7 * n + 3)
        = some (m1, rng1) ∧
      mat_add_drop m1 ((1 : Nat) : Int) ((1 : Nat) : Int) (LAYER_FG : Int) rng1 = some (m1, rng1) ∧
      mat_add_drop m1 ((1 : Nat) : Int) ((1 : Nat) : Int) (LAYER_FG : Int) (fun _ => 4)
        = some (m1, fun _ => 4) :=
  ⟨by decide, add_drop_twice grid_3x2 (by decide) 1 1 LAYER_FG (by decide) (by decide)
    (by decide) (fun n => 7 * n + 3) (fun _ => 4)⟩

/-- C9 (effect of a placed drop): on a well-formed grid, for a layer `L` of the two and a
random stream `rng`: at a cell `(row, col)` of the grid that is blank on `L`,
`mat_add_drop(mat, row, col, L)` consumes one random number `rng 0` and sets the `L` glyph
of the cell to `1 + rng 0 % 6`, a palette index in 1..6 that does not depend on the grid;
the other layer of the cell and the bytes of all other cells are unchanged, the dimensions
and `char_ratio` are unchanged, and `char_count` grows by 1 (in `size_t` arithmetic, so by
exactly 1 unless it was `SIZE_MAX`).  At every position outside the grid, negative
coordinates included, the call changes nothing and draws nothing. -/
theorem add_drop_effect (m : matrix) (hG : Grid m) (L : Nat)
    (hL : L = LAYER_FG ∨ L = LAYER_BG) (rng : Rng) :
    (∀ row col : Nat, row < m.rows → col < m.cols →
      mat_get_glyph m (row : Int) (col : Int) L = some 0 →
      ∃ m' : matrix,
        mat_add_drop m (row : Int) (col : Int) (L : Int) rng = some (m', rng.next) ∧
        mat_get_glyph m' (row : Int) (col : Int) L = some (1 + rng 0 % 6) ∧
        1 ≤ 1 + rng 0 % 6 ∧ 1 + rng 0 % 6 ≤ 6 ∧ 1 + rng 0 % 6 < NUM_GLYPHS ∧
        (∀ L', (L' = LAYER_FG ∨ L' = LAYER_BG) → L' ≠ L → ∃ x,
          mat_get_glyph m (row : Int) (col : Int) L' = some x ∧
          mat_get_glyph m' (row : Int) (col : Int) L' = some x) ∧
        (∀ r c : Nat, r < m.rows → c < m.cols → (r ≠ row ∨ c ≠ col) → ∃ x,
          mat_get_value m (r : Int) (c : Int) = some x ∧
          mat_get_value m' (r : Int) (c : Int) = some x) ∧
        m'.rows = m.rows ∧ m'.cols = m.cols ∧ m'.char_ratio = m.char_ratio ∧
        m'.char_count = (m.char_count + 1) % SIZE_MOD ∧
        (m.char_count + 1 < SIZE_MOD → m'.char_count = m.char_count + 1)) ∧
    (∀ row col : Int,
      (row < 0 ∨ (m.rows : Int) ≤ row ∨ col < 0 ∨ (m.cols : Int) ≤ col) →
      mat_add_drop m row col (L : Int) rng = some (m, rng)) := by
  refine ⟨?_, fun row col h => mat_add_drop_oob m _ rng h⟩
  intro row col hr hc hblank
  rw [mat_get_glyph_inb hG hr hc L] at hblank
  have hz : get_layer (m.data.getD (row * m.cols + col) 0) L = 0 := Option.some.inj hblank
  have hG1 := Grid_add_drop hG (row * m.cols + col) (1 + rng 0 % 6) L (rand_glyph_lt _)
  have hi : row * m.cols + col < m.data.length := lt_of_lt_of_le (idx_lt hr hc) hG.2.2.2.1
  have hbyte := bytes_getD hG.2.2.2.2.1 (row * m.cols + col)
  refine ⟨{ m with
      data := (m.data.set (row * m.cols + col)
        (put_layer (m.data.getD (row * m.cols + col) 0) (1 + rng 0 % 6) L)),
      char_count := (m.char_count + 1) % SIZE_MOD },
    ?_, ?_, by omega, by omega, ?_, ?_, ?_, rfl, rfl, rfl, rfl, ?_⟩
  · rw [mat_add_drop_inb hG hr hc hL rng, if_neg (by rw [hz]; simp)]
  · rw [mat_get_glyph_inb hG1 hr hc L]
    dsimp only
    rw [getD_set, if_pos ⟨rfl, hi⟩, get_put_layer hbyte (rand_glyph_lt _) hL hL, if_pos rfl]
  · have : NUM_GLYPHS = 7 := by decide
    omega
  · intro L' hL' hne
    refine ⟨_, mat_get_glyph_inb hG hr hc L', ?_⟩
    rw [mat_get_glyph_inb hG1 hr hc L']
    dsimp only
    rw [getD_set, if_pos ⟨rfl, hi⟩, get_put_layer hbyte (rand_glyph_lt _) hL hL', if_neg hne]
  · intro r c hr' hc' hne
    refine ⟨_, mat_get_value_inb hG hr' hc', ?_⟩
    rw [mat_get_value_inb hG1 hr' hc']
    dsimp only
    rw [getD_set, if_neg]
    intro h
    have := idx_inj hc hc' h.1.symm
    omega
  · intro h
    exact Nat.mod_eq_of_lt h

theorem add_drop_effect_witness :
    (Grid grid_3x2 ∧ (LAYER_BG = LAYER_FG ∨ LAYER_BG = LAYER_BG)) ∧
    ((∀ row col : Nat, row < grid_3x2.rows → col < grid_3x2.cols →
      mat_get_glyph grid_3x2 (row : Int) (col : Int) LAYER_BG = some 0 →
      ∃ m' : matrix,
        mat_add_drop grid_3x2 (row : Int) (col : Int) (LAYER_BG : Int) (fun n => n + 9)
          = some (m', Rng.next (fun n => n + 9)) ∧
        mat_get_glyph m' (row : Int) (col : Int) LAYER_BG = some (1 + (0 + 9) % 6) ∧
        1 ≤ 1 + (0 + 9) % 6 ∧ 1 + (0 + 9) % 6 ≤ 6 ∧ 1 + (0 + 9) % 6 < NUM_GLYPHS ∧
        (∀ L', (L' = LAYER_FG ∨ L' = LAYER_BG) → L' ≠ LAYER_BG → ∃ x,
          mat_get_glyph grid_3x2 (row : Int) (col : Int) L' = some x ∧
          mat_get_glyph m' (row : Int) (col : Int) L' = some x) ∧
        (∀ r c : Nat, r < grid_3x2.rows → c < grid_3x2.cols → (r ≠ row ∨ c ≠ col) → ∃ x,
          mat_get_value grid_3x2 (r : Int) (c : Int) = some x ∧
          mat_get_value m' (r : Int) (c : Int) = some x) ∧
        m'.rows = grid_3x2.rows ∧ m'.cols = grid_3x2.cols ∧
        m'.char_ratio = grid_3x2.char_ratio ∧
        m'.char_count = (grid_3x2.char_count + 1) % SIZE_MOD ∧
        (grid_3x2.char_count + 1 < SIZE_MOD → m'.char_count = grid_3x2.char_count + 1)) ∧
    (∀ row col : Int,
      (row < 0 ∨ (grid_3x2.rows : Int) ≤ row ∨ col < 0 ∨ (grid_3x2.cols : Int) ≤ col) →
      mat_add_drop grid_3x2 row col (LAYER_BG : Int) (fun n => n + 9)
        = some (grid_3x2, fun n => n + 9))) :=
  ⟨by decide, add_drop_effect grid_3x2 (by decide) LAYER_BG (by decide) (fun n => n + 9)⟩

/-! ## Binary32 rounding -/

theorem f32_round_zero : f32_round 0 = 0 := by
  simp [f32_round]

theorem f32_round_neg (q : ℚ) : f32_round (-q) = -f32_round q := by
  unfold f32_round
  rw [Rat.neg_num, Rat.neg_den, Int.natAbs_neg]
  by_cases h0 : q.num = 0
  · simp [h0]
  · have h1 : -q.num ≠ 0 := by omega
    rw [if_neg h0, if_neg h1]
    by_cases hneg : q.num < 0
    · rw [if_pos hneg, if_neg (by omega)]; ring
    · rw [if_neg hneg, if_pos (by omega)]; ring

/-- The rounding of a positive fraction in lowest terms. -/
theorem f32_round_frac (a b n : Nat) (k : Int) (ha : 0 < a) (hb : 0 < b)
    (hc : Nat.Coprime a b) (hn : f32_mant a b = n) (hk : f32_exp a b = k) :
    f32_round ((a : ℚ) / (b : ℚ)) = (n : ℚ) * 2 ^ k := by
  have hnum : ((a : ℚ) / (b : ℚ)).num = (a : Int) := by
    have := Rat.num_div_eq_of_coprime (a := (a : Int)) (b := (b : Int)) (by exact_mod_cast hb)
      (by simpa using hc)
    simpa using this
  have hden : ((a : ℚ) / (b : ℚ)).den = b := by
    have := Rat.den_div_eq_of_coprime (a := (a : Int)) (b := (b : Int)) (by exact_mod_cast hb)
      (by simpa using hc)
    have h2 : (((a : ℚ) / (b : ℚ)).den : Int) = (b : Int) := by simpa using this
    exact_mod_cast h2
  unfold f32_round
  rw [hnum, hden, Int.natAbs_ofNat, if_neg (by omega), if_neg (by omega), hn, hk, one_mul]

theorem trunc_int_zero : trunc_int 0 = 0 := by
  simp [trunc_int, wrap32]

theorem drops_desired_zero_ratio {m : matrix} (h0 : m.char_ratio = 0) : drops_desired m = 0 := by
  unfold drops_desired
  rw [h0, mul_zero, f32_round_zero, trunc_int_zero]

/-- With density 0 and no drop in the grid, `drops_to_add` is 0. -/
theorem drops_to_add_blank {m : matrix} (h0 : m.char_ratio = 0) (hcount : m.char_count = 0) :
    drops_to_add m = 0 := by
  have hmiss : drops_missing m = 0 := by
    unfold drops_missing
    rw [drops_desired_zero_ratio h0, hcount]
    rfl
  unfold drops_to_add
  rw [hmiss, Int.cast_zero, f32_round_zero, zero_div, f32_round_zero, Int.ceil_zero]
  rfl

/-- On the grid of 4 rows and 1 column with density 0 and one drop, `drops_missing` is -1
and `drops_to_add` is `ceil(-1 / 4.0f) = 0`. -/
theorem drops_to_add_lone (d : List Nat) :
    drops_to_add { grid_lone 3 with data := d } = 0 := by
  have hmiss : drops_missing { grid_lone 3 with data := d } = -1 := by
    unfold drops_missing
    rw [drops_desired_zero_ratio rfl]
    rfl
  have h1 : f32_round ((1 : Nat) : ℚ) = 1 := by
    have h := f32_round_frac 1 1 8388608 (-23) (by decide) (by decide) (by decide)
      (by decide) (by decide)
    rw [Nat.cast_one, div_one] at h
    rw [Nat.cast_one, h]
    norm_num
  have h4 : f32_round ((4 : Nat) : ℚ) = 4 := by
    have h := f32_round_frac 4 1 8388608 (-21) (by decide) (by decide) (by decide)
      (by decide) (by decide)
    rw [Nat.cast_one, div_one] at h
    rw [h]
    norm_num
  have hq : f32_round ((1 : ℚ) / 4) = 1 / 4 := by
    have h := f32_round_frac 1 4 8388608 (-25) (by decide) (by decide) (by decide)
      (by decide) (by decide)
    rw [show ((1 : ℚ) / 4) = ((1 : Nat) : ℚ) / ((4 : Nat) : ℚ) by norm_num, h]
    norm_num
  unfold drops_to_add
  rw [hmiss]
  have hrows : (({ grid_lone 3 with data := d } : matrix).rows : ℚ) = ((4 : Nat) : ℚ) := rfl
  have hm1 : (((-1 : Int) : Int) : ℚ) = -((1 : Nat) : ℚ) := by norm_num
  rw [hrows, h4, hm1, f32_round_neg, h1, show (-(1 : ℚ) / 4) = -((1 : ℚ) / 4) by norm_num,
    f32_round_neg, hq]
  have hceil : ⌈-((1 : ℚ) / 4)⌉ = 0 := by
    rw [Int.ceil_eq_iff]
    norm_num
  rw [hceil]
  rfl

theorem rand_col (cols r : Nat) :
    rand_int 0 ((cols : Int) - 1) r = ((r % cols : Nat) : Int) := by
  unfold rand_int
  have h : ((cols : Int) - 1 + 1) - 0 = (cols : Int) := by omega
  rw [h, ← Int.ofNat_tmod, Int.zero_add]

/-- After the fall loop `mat_update` runs the spawn loop `drops_to_add + 1` times. -/
theorem mat_update_of_fall {m m1 : matrix} {L : Nat} (rng : Rng)
    (hfall : mat_update_fall L m.cols 0 m = some m1) :
    mat_update m L rng = mat_update_spawn L (spawn_iterations (drops_to_add m1)) m1 rng := by
  unfold mat_update
  rewrite [hfall, Option.bind_eq_bind, Option.some_bind]
  rfl

/-- When `drops_to_add` is 0 after the fall, the spawn loop of `mat_update` runs once:
one call of `mat_add_drop` in row 0. -/
theorem mat_update_zero_ratio {m m1 : matrix} {L : Nat} (rng : Rng)
    (hfall : mat_update_fall L m.cols 0 m = some m1) (hta : drops_to_add m1 = 0) :
    mat_update m L rng
      = mat_add_drop m1 0 ((rng 0 % m1.cols : Nat) : Int) (L : Int) rng.next := by
  rewrite [mat_update_of_fall rng hfall, hta]
  have h1 : spawn_iterations 0 = 1 := rfl
  rewrite [h1, mat_update_spawn, rand_col, Option.bind_eq_bind]
  cases mat_add_drop m1 0 ((rng 0 % m1.cols : Nat) : Int) (L : Int) rng.next with
  | none => rfl
  | some r => rfl

/-- C3 (spawn count; the code differs): on the all-blank 2 x 2 grid with density 0 and
`char_count == 0` the fall phase of `mat_update(mat, LAYER_FG)` changes nothing and
`drops_missing` is 0, so the claim has no call of `mat_add_drop`; the loop
`for (i = 0; i <= drops_to_add; ++i)` runs once all the same (`drops_to_add == 0`), and for
every random stream the call places a drop in row 0 and `char_count` becomes 1. -/
theorem mat_update_spawn_count_blank (rng : Rng) :
    mat_update_fall LAYER_FG grid_blank_2x2.cols 0 grid_blank_2x2 = some grid_blank_2x2 ∧
    drops_desired grid_blank_2x2 = 0 ∧ drops_missing grid_blank_2x2 = 0 ∧
    drops_to_add grid_blank_2x2 = 0 ∧
    spawn_iterations (drops_to_add grid_blank_2x2) = 1 ∧
    ∃ m' : matrix, mat_update grid_blank_2x2 LAYER_FG rng = some (m', rng.next.next) ∧
      m'.char_count = 1 ∧
      mat_get_glyph m' 0 ((rng 0 % 2 : Nat) : Int) LAYER_FG = some (1 + rng 1 % 6) := by
  have hfall : mat_update_fall LAYER_FG grid_blank_2x2.cols 0 grid_blank_2x2
      = some grid_blank_2x2 := by decide
  have hG : Grid grid_blank_2x2 := by decide
  have hd : drops_desired grid_blank_2x2 = 0 := drops_desired_zero_ratio rfl
  have hta : drops_to_add grid_blank_2x2 = 0 := drops_to_add_blank rfl rfl
  have hc : rng 0 % 2 < grid_blank_2x2.cols := Nat.mod_lt _ (by decide)
  have hblank : get_layer (grid_blank_2x2.data.getD (0 * grid_blank_2x2.cols + rng 0 % 2) 0)
      LAYER_FG = 0 := by
    have h2 : rng 0 % 2 < 2 := Nat.mod_lt _ (by decide)
    interval_cases (rng 0 % 2) <;> decide
  have hrun := mat_update_zero_ratio (L := LAYER_FG) rng hfall hta
  have hadd := mat_add_drop_inb hG (r := 0) (c := rng 0 % 2) (L := LAYER_FG) (by decide) hc
    (Or.inl rfl) rng.next
  rw [if_neg (by rw [hblank]; simp)] at hadd
  simp only [Nat.cast_zero] at hadd
  refine ⟨hfall, hd, ?_, hta, by rw [hta]; rfl, _, hrun.trans hadd, rfl, ?_⟩
  · unfold drops_missing; rw [hd]; rfl
  · have hG1 := Grid_add_drop hG (0 * grid_blank_2x2.cols + rng 0 % 2)
      (1 + rng.next 0 % 6) LAYER_FG (rand_glyph_lt _)
    have h := mat_get_glyph_inb hG1 (r := 0) (c := rng 0 % 2) (by show 0 < 2; decide) hc
      LAYER_FG
    simp only [Nat.cast_zero] at h
    rw [h]
    show some (get_layer ((grid_blank_2x2.data.set _ _).getD _ 0) LAYER_FG) = _
    rw [getD_set, if_pos ⟨rfl, lt_of_lt_of_le (idx_lt (by decide) hc) hG.2.2.2.1⟩,
      get_put_layer (bytes_getD hG.2.2.2.2.1 _) (rand_glyph_lt _) (Or.inl rfl) (Or.inl rfl),
      if_pos rfl]
    rfl

/-- C4 (conservation per tick; the code differs): the all-blank grid of one cell with
density 0 has `char_count == 0`, consistent with its contents, and no glyph in its bottom
row; yet for each layer and every random stream `mat_update` returns a grid with
`char_count == 1` and a glyph `1 + rng 1 % 6` in the cell: the count has grown and the
empty grid has not stayed empty. -/
theorem mat_update_blank_grows (rng : Rng) :
    Grid grid_blank_1x1 ∧ grid_blank_1x1.char_ratio = 0 ∧
    grid_blank_1x1.char_count = layer_count grid_blank_1x1 LAYER_FG
      + layer_count grid_blank_1x1 LAYER_BG ∧
    mat_get_glyph grid_blank_1x1 ((grid_blank_1x1.rows : Int) - 1) 0 LAYER_FG = some 0 ∧
    mat_get_glyph grid_blank_1x1 ((grid_blank_1x1.rows : Int) - 1) 0 LAYER_BG = some 0 ∧
    (∃ m' : matrix, mat_update grid_blank_1x1 LAYER_FG rng = some (m', rng.next.next) ∧
      m'.char_count = 1 ∧ mat_get_glyph m' 0 0 LAYER_FG = some (1 + rng 1 % 6)) ∧
    (∃ m' : matrix, mat_update grid_blank_1x1 LAYER_BG rng = some (m', rng.next.next) ∧
      m'.char_count = 1 ∧ mat_get_glyph m' 0 0 LAYER_BG = some (1 + rng 1 % 6)) := by
  have hG : Grid grid_blank_1x1 := by decide
  have key : ∀ L, (L = LAYER_FG ∨ L = LAYER_BG) →
      ∃ m' : matrix, mat_update grid_blank_1x1 L rng = some (m', rng.next.next) ∧
        m'.char_count = 1 ∧ mat_get_glyph m' 0 0 L = some (1 + rng 1 % 6) := by
    intro L hL
    have hfall : mat_update_fall L grid_blank_1x1.cols 0 grid_blank_1x1
        = some grid_blank_1x1 := by
      rcases hL with rfl | rfl <;> decide
    have hrun := mat_update_zero_ratio (L := L) rng hfall (drops_to_add_blank rfl rfl)
    have hc0 : rng 0 % grid_blank_1x1.cols = 0 := Nat.mod_one _
    rw [hc0] at hrun
    have hadd := mat_add_drop_inb hG (r := 0) (c := 0) (L := L) (by decide) (by decide) hL
      rng.next
    have hblank : get_layer (grid_blank_1x1.data.getD (0 * grid_blank_1x1.cols + 0) 0) L
        = 0 := by
      rcases hL with rfl | rfl <;> decide
    rw [if_neg (by rw [hblank]; simp)] at hadd
    refine ⟨_, hrun.trans hadd, rfl, ?_⟩
    have hG1 := Grid_add_drop hG (0 * grid_blank_1x1.cols + 0) (1 + rng.next 0 % 6) L
      (rand_glyph_lt _)
    have h := mat_get_glyph_inb hG1 (r := 0) (c := 0) (by show 0 < 1; decide)
      (by show 0 < 1; decide) L
    simp only [Nat.cast_zero] at h
    rw [h]
    show some (get_layer ((grid_blank_1x1.data.set _ _).getD _ 0) L) = _
    rw [getD_set, if_pos ⟨rfl, by decide⟩,
      get_put_layer (bytes_getD hG.2.2.2.2.1 _) (rand_glyph_lt _) hL hL, if_pos rfl]
    rfl
  exact ⟨hG, rfl, by decide, by decide, by decide, key _ (Or.inl rfl), key _ (Or.inr rfl)⟩

/-- C5 (fall determinism; the code differs): on the grid of 4 rows and 1 column with
density 0, `char_count == 1` and the single foreground glyph 3 at row 0, the first call of
`mat_update(mat, LAYER_FG)` returns, for every random stream, a grid holding the glyph 3 at
row 1 and a new glyph `1 + rng 1 % 6` at row 0, with `char_count == 2`: the glyph at row 1
is not the only non-blank cell of the column. -/
theorem mat_update_lone_glyph (rng : Rng) :
    Grid (grid_lone 3) ∧
    ∃ m' : matrix, mat_update (grid_lone 3) LAYER_FG rng = some (m', rng.next.next) ∧
      m'.data = [1 + rng 1 % 6, 3, 0, 0] ∧ m'.char_count = 2 ∧
      mat_get_glyph m' 1 0 LAYER_FG = some 3 ∧
      mat_get_glyph m' 0 0 LAYER_FG = some (1 + rng 1 % 6) ∧ 1 + rng 1 % 6 ≠ 0 := by
  have hfall : mat_update_fall LAYER_FG (grid_lone 3).cols 0 (grid_lone 3)
      = some { grid_lone 3 with data := [0, 3, 0, 0] } := by decide
  have hG1 : Grid { grid_lone 3 with data := [0, 3, 0, 0] } := by decide
  have hrun := mat_update_zero_ratio (L := LAYER_FG) rng hfall (drops_to_add_lone _)
  have hc0 : rng 0 % ({ grid_lone 3 with data := [0, 3, 0, 0] } : matrix).cols = 0 :=
    Nat.mod_one _
  rw [hc0] at hrun
  have hadd := mat_add_drop_inb hG1 (r := 0) (c := 0) (L := LAYER_FG) (by decide) (by decide)
    (Or.inl rfl) rng.next
  rw [if_neg (by decide)] at hadd
  have hput : put_layer 0 (1 + rng 1 % 6) LAYER_FG = 1 + rng 1 % 6 := by
    have h6 : rng 1 % 6 < 6 := Nat.mod_lt _ (by decide)
    interval_cases (rng 1 % 6) <;> decide
  have hdata : (({ grid_lone 3 with data := [0, 3, 0, 0] } : matrix).data.set
      (0 * ({ grid_lone 3 with data := [0, 3, 0, 0] } : matrix).cols + 0)
      (put_layer ((({ grid_lone 3 with data := [0, 3, 0, 0] } : matrix).data.getD
        (0 * ({ grid_lone 3 with data := [0, 3, 0, 0] } : matrix).cols + 0) 0))
        (1 + rng.next 0 % 6) LAYER_FG)) = [1 + rng 1 % 6, 3, 0, 0] := by
    show [put_layer 0 (1 + rng 1 % 6) LAYER_FG, 3, 0, 0] = _
    rw [hput]
  rw [hdata] at hadd
  refine ⟨by decide, _, hrun.trans hadd, rfl, rfl, ?_, ?_, rand_glyph_ne_zero _⟩
  · have h6 : rng 1 % 6 < 6 := Nat.mod_lt _ (by decide)
    interval_cases (rng 1 % 6) <;> decide
  · have h6 : rng 1 % 6 < 6 := Nat.mod_lt _ (by decide)
    interval_cases (rng 1 % 6) <;> decide

/-! ## Resize -/

/-- A successful `realloc` keeps every byte of the old block that fits the new one. -/
theorem realloc_keeps (old : List Nat) (n : Nat) (f : Nat → Nat) (i : Nat)
    (hi : i < old.length) (hn : i < n) :
    ∃ d, realloc old n (some f) = some d ∧ d.length = n ∧ d.getD i 0 = old.getD i 0 := by
  refine ⟨_, rfl, by simp, ?_⟩
  simp [List.getD_eq_getElem?_getD, List.getElem?_map, List.getElem?_range hn,
    List.getElem?_eq_getElem hi]

/-- C7 (resize resets state; the code differs): `mat_init` resets `char_count` and stores
the new dimensions and density, but `realloc` keeps the bytes of the old block: for the
one-cell grid holding foreground glyph 1 and background glyph 2, after
`mat_init(mat, 1, 1, 0.1)` (whatever the allocator puts into fresh bytes) the block is the
old one and the cell still reads 1 on the foreground and 2 on the background, with
`char_count == 0`.  On the first call (`matrix_s mat = { 0 }`) the cells read whatever the
allocator left in the block, here 3. -/
theorem mat_init_keeps_old_glyphs (f : Nat → Nat) :
    Grid grid_1x1_full ∧
    mat_init grid_1x1_full 1 1 (1 / 10) (some f)
      = (0, { grid_1x1_full with char_count := 0 }) ∧
    (mat_init grid_1x1_full 1 1 (1 / 10) (some f)).2.char_count = 0 ∧
    mat_get_glyph (mat_init grid_1x1_full 1 1 (1 / 10) (some f)).2 0 0 LAYER_FG = some 1 ∧
    mat_get_glyph (mat_init grid_1x1_full 1 1 (1 / 10) (some f)).2 0 0 LAYER_BG = some 2 ∧
    mat_get_glyph (mat_init matrix_zero 1 1 (1 / 10) (some fun _ => 0x33)).2 0 0 LAYER_FG
      = some 3 := by
  have h : mat_init grid_1x1_full 1 1 (1 / 10) (some f)
      = (0, { grid_1x1_full with char_count := 0 }) := rfl
  rw [h]
  exact ⟨by decide, rfl, rfl, by decide, by decide, by decide⟩

/-! ## The counter -/

theorem layer_count_le (m : matrix) (L : Nat) : layer_count m L ≤ m.rows * m.cols := by
  unfold layer_count
  exact le_trans (List.countP_le_length _) (by simp)

/-- Effect of writing one glyph on the number of non-blank glyphs of a layer. -/
theorem count_put_layer {m : matrix} (hG : Grid m) {i g L L' : Nat}
    (hi : i < m.rows * m.cols) (hg : g < 16) (hL : L = LAYER_FG ∨ L = LAYER_BG)
    (hL' : L' = LAYER_FG ∨ L' = LAYER_BG) :
    ((m.data.set i (put_layer (m.data.getD i 0) g L)).take (m.rows * m.cols)).countP
        (fun v => get_layer v L' ≠ 0)
      + (if L' = L ∧ get_layer (m.data.getD i 0) L ≠ 0 then 1 else 0)
      = layer_count m L' + (if L' = L ∧ g ≠ 0 then 1 else 0) := by
  have h := countP_take_set_prop (fun v => get_layer v L' ≠ 0) m.data i (m.rows * m.cols)
    (put_layer (m.data.getD i 0) g L) hi hG.2.2.2.1
  dsimp only at h
  rw [get_put_layer (bytes_getD hG.2.2.2.2.1 _) hg hL hL'] at h
  unfold layer_count
  by_cases hLL : L' = L
  · subst hLL
    rw [if_pos rfl] at h
    simpa using h
  · rw [if_neg hLL] at h
    rw [if_neg (fun h => hLL h.1), if_neg (fun h => hLL h.1)]
    omega

theorem Counted_add_drop {m : matrix} (hM : Counted m) (row col : Int) {L : Nat}
    (hL : L = LAYER_FG ∨ L = LAYER_BG) (rng : Rng) :
    ∃ (m' : matrix) (rng' : Rng), mat_add_drop m row col (L : Int) rng = some (m', rng') ∧
      Counted m' ∧ m'.rows = m.rows ∧ m'.cols = m.cols ∧ m'.char_ratio = m.char_ratio := by
  obtain ⟨hG, hrows, hcols, hcnt⟩ := hM
  by_cases hout : row < 0 ∨ (m.rows : Int) ≤ row ∨ col < 0 ∨ (m.cols : Int) ≤ col
  · exact ⟨m, rng, mat_add_drop_oob m _ rng hout, ⟨hG, hrows, hcols, hcnt⟩, rfl, rfl, rfl⟩
  · obtain ⟨r, rfl⟩ := Int.eq_ofNat_of_zero_le (show 0 ≤ row by omega)
    obtain ⟨c, rfl⟩ := Int.eq_ofNat_of_zero_le (show 0 ≤ col by omega)
    have hr : r < m.rows := by omega
    have hc : c < m.cols := by omega
    rw [mat_add_drop_inb hG hr hc hL rng]
    by_cases h : get_layer (m.data.getD (r * m.cols + c) 0) L ≠ 0
    · rw [if_pos h]
      exact ⟨m, rng, rfl, ⟨hG, hrows, hcols, hcnt⟩, rfl, rfl, rfl⟩
    · rw [if_neg h]
      refine ⟨_, _, rfl, ⟨Grid_add_drop hG _ _ L (rand_glyph_lt _), hrows, hcols, ?_⟩,
        rfl, rfl, rfl⟩
      have hi := idx_lt hr hc
      have cF := count_put_layer hG hi (rand_glyph_lt (rng 0)) hL (Or.inl rfl)
      have cB := count_put_layer hG hi (rand_glyph_lt (rng 0)) hL (Or.inr rfl)
      have hle1 := layer_count_le m LAYER_FG
      have hle2 := layer_count_le m LAYER_BG
      have h31 := hG.2.2.1
      have hmod : (m.char_count + 1) % SIZE_MOD = m.char_count + 1 :=
        Nat.mod_eq_of_lt (by unfold SIZE_MOD; omega)
      show (m.char_count + 1) % SIZE_MOD = _
      rw [hmod]
      unfold layer_count
      dsimp only
      have hne := rand_glyph_ne_zero (rng 0)
      rcases hL with rfl | rfl
      · rw [if_neg (fun x => h x.2), if_pos ⟨rfl, hne⟩] at cF
        rw [if_neg (fun x => absurd x.1 (by decide)),
          if_neg (fun x => absurd x.1 (by decide))] at cB
        omega
      · rw [if_neg (fun x => absurd x.1 (by decide)),
          if_neg (fun x => absurd x.1 (by decide))] at cF
        rw [if_neg (fun x => h x.2), if_pos ⟨rfl, hne⟩] at cB
        omega

theorem Counted_mov_col {m : matrix} (hM : Counted m) {c L : Nat} (hc : c < m.cols)
    (hL : L = LAYER_FG ∨ L = LAYER_BG) :
    ∃ (dropped : Nat) (m' : matrix), mat_mov_col m (c : Int) L = some (dropped, m') ∧
      Counted { m' with char_count := (m'.char_count + SIZE_MOD - dropped) % SIZE_MOD } ∧
      m'.rows = m.rows ∧ m'.cols = m.cols ∧ m'.char_ratio = m.char_ratio := by
  obtain ⟨hG, hrows, hcols, hcnt⟩ := hM
  obtain ⟨d', hrun, hlen, hb, _, hF3, _, _, hC⟩ := mat_mov_col_spec hG hrows hc hL
  refine ⟨_, _, hrun, ⟨?_, hrows, hcols, ?_⟩, rfl, rfl, rfl⟩
  · exact ⟨hG.1, hG.2.1, hG.2.2.1, by simpa [hlen] using hG.2.2.2.1, hb,
      Nat.mod_lt _ (by decide)⟩
  · generalize (if get_layer (m.data.getD ((m.rows - 1) * m.cols + c) 0) L ≠ 0 then 1 else 0)
      = dropped at hC ⊢
    have hother : ∀ L', (L' = LAYER_FG ∨ L' = LAYER_BG) → L' ≠ L →
        (d'.take (m.rows * m.cols)).countP (fun v => get_layer v L' ≠ 0)
          = (m.data.take (m.rows * m.cols)).countP (fun v => get_layer v L' ≠ 0) := by
      intro L' hL' hne
      apply countP_take_congr _ _ _ _ _ hlen
      intro i
      rw [hF3 i L' hL' hne]
    have hlt := hG.2.2.2.2.2
    unfold layer_count at hcnt ⊢
    dsimp only
    unfold SIZE_MOD at hlt ⊢
    rcases hL with rfl | rfl
    · have hB := hother LAYER_BG (Or.inr rfl) (by decide)
      rw [hB]
      have : dropped ≤ m.char_count := by omega
      omega
    · have hF := hother LAYER_FG (Or.inl rfl) (by decide)
      rw [hF]
      have : dropped ≤ m.char_count := by omega
      omega

theorem Counted_update_fall {L : Nat} (hL : L = LAYER_FG ∨ L = LAYER_BG) :
    ∀ (n col : Nat) (m : matrix), Counted m → col + n ≤ m.cols →
      ∃ m' : matrix, mat_update_fall L n col m = some m' ∧ Counted m' ∧
        m'.rows = m.rows ∧ m'.cols = m.cols ∧ m'.char_ratio = m.char_ratio
  | 0, _, m, hM, _ => ⟨m, rfl, hM, rfl, rfl, rfl⟩
  | n + 1, col, m, hM, hn => by
    obtain ⟨dropped, m1, hrun, hM1, hr1, hc1, hq1⟩ :=
      Counted_mov_col hM (c := col) (by omega) hL
    obtain ⟨m2, hrun2, hM2, hr2, hc2, hq2⟩ :=
      Counted_update_fall hL n (col + 1) _ hM1 (by show col + 1 + n ≤ m1.cols; omega)
    refine ⟨m2, ?_, hM2, hr2.trans hr1, hc2.trans hc1, hq2.trans hq1⟩
    rw [mat_update_fall, hrun]
    exact hrun2

theorem Counted_update_spawn {L : Nat} (hL : L = LAYER_FG ∨ L = LAYER_BG) :
    ∀ (n : Nat) (m : matrix) (rng : Rng), Counted m →
      ∃ (m' : matrix) (rng' : Rng), mat_update_spawn L n m rng = some (m', rng') ∧
        Counted m' ∧ m'.rows = m.rows ∧ m'.cols = m.cols ∧ m'.char_ratio = m.char_ratio
  | 0, m, rng, hM => ⟨m, rng, rfl, hM, rfl, rfl, rfl⟩
  | n + 1, m, rng, hM => by
    obtain ⟨m1, rng1, hrun, hM1, hr1, hc1, hq1⟩ :=
      Counted_add_drop hM 0 (rand_int 0 ((m.cols : Int) - 1) (rng 0)) hL rng.next
    obtain ⟨m2, rng2, hrun2, hM2, hr2, hc2, hq2⟩ := Counted_update_spawn hL n m1 rng1 hM1
    refine ⟨m2, rng2, ?_, hM2, hr2.trans hr1, hc2.trans hc1, hq2.trans hq1⟩
    rw [mat_update_spawn]
    simp only [Option.bind_eq_bind]
    rw [hrun]
    exact hrun2

theorem Counted_update {m : matrix} (hM : Counted m) {L : Nat}
    (hL : L = LAYER_FG ∨ L = LAYER_BG) (rng : Rng) :
    ∃ (m' : matrix) (rng' : Rng), mat_update m L rng = some (m', rng') ∧ Counted m' ∧
      m'.rows = m.rows ∧ m'.cols = m.cols ∧ m'.char_ratio = m.char_ratio := by
  obtain ⟨m1, hrun, hM1, hr1, hc1, hq1⟩ :=
    Counted_update_fall hL m.cols 0 m hM (by omega)
  obtain ⟨m2, rng2, hrun2, hM2, hr2, hc2, hq2⟩ :=
    Counted_update_spawn hL (spawn_iterations (drops_to_add m1)) m1 rng hM1
  refine ⟨m2, rng2, ?_, hM2, hr2.trans hr1, hc2.trans hc1, hq2.trans hq1⟩
  rewrite [mat_update_of_fall rng hrun]
  exact hrun2

theorem rand_layer (r : Nat) :
    ∃ L : Nat, (L = LAYER_FG ∨ L = LAYER_BG) ∧
      rand_int (LAYER_FG : Int) (LAYER_BG : Int) r = (L : Int) := by
  refine ⟨1 + r % 2, ?_, rand_int_nat 1 1 r⟩
  unfold LAYER_FG LAYER_BG
  omega

theorem Counted_rain_loop :
    ∀ (n : Nat) (m : matrix) (rng : Rng), Counted m →
      ∃ (m' : matrix) (rng' : Rng), mat_rain_loop n m rng = some (m', rng') ∧
        Counted m' ∧ m'.rows = m.rows ∧ m'.cols = m.cols ∧ m'.char_ratio = m.char_ratio
  | 0, m, rng, hM => ⟨m, rng, rfl, hM, rfl, rfl, rfl⟩
  | n + 1, m, rng, hM => by
    obtain ⟨L, hL, hLeq⟩ := rand_layer (rng 2)
    obtain ⟨m1, rng1, hrun, hM1, hr1, hc1, hq1⟩ :=
      Counted_add_drop hM (rand_int 0 ((m.rows : Int) - 1) (rng 1))
        (rand_int 0 ((m.cols : Int) - 1) (rng 0)) hL rng.next.next.next
    obtain ⟨m2, rng2, hrun2, hM2, hr2, hc2, hq2⟩ := Counted_rain_loop n m1 rng1 hM1
    refine ⟨m2, rng2, ?_, hM2, hr2.trans hr1, hc2.trans hc1, hq2.trans hq1⟩
    rw [mat_rain_loop]
    simp only [Option.bind_eq_bind]
    rw [hLeq, hrun]
    exact hrun2

theorem Layer.tag_cases (L : Layer) : L.tag = LAYER_FG ∨ L.tag = LAYER_BG := by
  cases L
  · exact Or.inl rfl
  · exact Or.inr rfl

theorem Counted_run_ops :
    ∀ (ops : List Op) (m : matrix) (rng : Rng), Counted m →
      ∃ (m' : matrix) (rng' : Rng), run_ops ops m rng = some (m', rng') ∧ Counted m' ∧
        m'.rows = m.rows ∧ m'.cols = m.cols ∧ m'.char_ratio = m.char_ratio
  | [], m, rng, hM => ⟨m, rng, rfl, hM, rfl, rfl, rfl⟩
  | op :: ops, m, rng, hM => by
    have hstep : ∃ (m1 : matrix) (rng1 : Rng), op.run m rng = some (m1, rng1) ∧ Counted m1 ∧
        m1.rows = m.rows ∧ m1.cols = m.cols ∧ m1.char_ratio = m.char_ratio := by
      cases op with
      | add_drop row col layer => exact Counted_add_drop hM row col layer.tag_cases rng
      | update layer => exact Counted_update hM layer.tag_cases rng
      | rain =>
        simp only [Op.run, mat_rain]
        exact Counted_rain_loop _ m rng hM
    obtain ⟨m1, rng1, hrun, hM1, hr1, hc1, hq1⟩ := hstep
    obtain ⟨m2, rng2, hrun2, hM2, hr2, hc2, hq2⟩ := Counted_run_ops ops m1 rng1 hM1
    refine ⟨m2, rng2, ?_, hM2, hr2.trans hr1, hc2.trans hc1, hq2.trans hq1⟩
    rw [run_ops]
    simp only [Option.bind_eq_bind]
    rw [hrun]
    exact hrun2

theorem layer_count_blank {m : matrix} (hblank : ∀ b ∈ m.data.take (m.rows * m.cols), b = 0)
    (L : Nat) : layer_count m L = 0 := by
  unfold layer_count
  rw [List.countP_eq_zero]
  intro b hb
  rw [hblank b hb]
  have h0 : get_layer 0 L = 0 := by
    unfold get_layer
    split
    · rfl
    · split <;> rfl
  simp [h0]

theorem Layer.other_tag_ne (L : Layer) : L.other.tag ≠ L.tag := by
  cases L <;> decide

/-- C6, as the claim states it, fails: from the all-blank grid of one cell, after
`mat_add_drop(mat, 0, 0, LAYER_FG)` and `mat_add_drop(mat, 0, 0, LAYER_BG)`, `char_count`
is 2 while the foreground holds 1 glyph and the background holds 1 glyph: `char_count` is
the count of neither layer. -/
theorem char_count_not_per_layer :
    (run_ops [Op.add_drop 0 0 Layer.fg, Op.add_drop 0 0 Layer.bg] grid_blank_1x1
        (fun _ => 0)).map
      (fun s => (s.1.char_count, layer_count s.1 LAYER_FG, layer_count s.1 LAYER_BG))
      = some (2, 1, 1) := by
  decide

/-- C6, amended: starting from an all-blank well-formed grid with at least one cell and
`char_count == 0`, every sequence of `mat_add_drop`, `mat_update` and `mat_rain` calls on
the two layers returns, and afterwards `char_count` is the number of non-blank glyphs of
the given layer plus the number of non-blank glyphs of the other layer; it is the count of
the given layer alone exactly when the other layer is blank. -/
theorem char_count_counts_both_layers (m : matrix) (hG : Grid m) (hrows : 1 ≤ m.rows)
    (hcols : 1 ≤ m.cols) (hblank : ∀ b ∈ m.data.take (m.rows * m.cols), b = 0)
    (hcount : m.char_count = 0) (ops : List Op) (rng : Rng) (L : Layer) :
    ∃ (m' : matrix) (rng' : Rng), run_ops ops m rng = some (m', rng') ∧
      m'.char_count = layer_count m' L.tag + layer_count m' L.other.tag ∧
      (m'.char_count = layer_count m' L.tag ↔ layer_count m' L.other.tag = 0) := by
  have hM : Counted m :=
    ⟨hG, hrows, hcols, by rw [hcount, layer_count_blank hblank, layer_count_blank hblank]⟩
  obtain ⟨m', rng', hrun, hM', _⟩ := Counted_run_ops ops m rng hM
  have hsum : m'.char_count = layer_count m' L.tag + layer_count m' L.other.tag := by
    have h := hM'.2.2.2
    cases L
    · exact h
    · rw [h]; exact Nat.add_comm _ _
  exact ⟨m', rng', hrun, hsum, by omega⟩

theorem char_count_counts_both_layers_witness :
    (Grid grid_blank_2x2 ∧ 1 ≤ grid_blank_2x2.rows ∧ 1 ≤ grid_blank_2x2.cols ∧
      (∀ b ∈ grid_blank_2x2.data.take (grid_blank_2x2.rows * grid_blank_2x2.cols), b = 0) ∧
      grid_blank_2x2.char_count = 0) ∧
    ∃ (m' : matrix) (rng' : Rng),
      run_ops [Op.rain, Op.add_drop 0 1 Layer.bg, Op.update Layer.fg, Op.update Layer.bg,
          Op.add_drop 1 1 Layer.fg] grid_blank_2x2 (fun n => 3 * n + 1) = some (m', rng') ∧
      m'.char_count = layer_count m' Layer.fg.tag + layer_count m' Layer.fg.other.tag ∧
      (m'.char_count = layer_count m' Layer.fg.tag ↔ layer_count m' Layer.fg.other.tag = 0) :=
  ⟨by decide, char_count_counts_both_layers grid_blank_2x2 (by decide) (by decide)
    (by decide) (by decide) (by decide) _ (fun n => 3 * n + 1) Layer.fg⟩

/-! ## Negative positions, results of the setters -/

/-- C11 (out of bounds is a silent blank; the code differs): `mat_get_value` and
`mat_set_value` compare only `row >= rows` and `col >= cols`, so a negative coordinate
reaches `mat_idx`.  On the grid of 3 rows and 2 columns, `mat_get_glyph(mat, 1, -1, L)`
reads the cell `(0, 1)` and returns its glyphs (2 on the foreground) where the claim has
0, `mat_set_glyph(mat, 1, -1, 5, LAYER_FG)` overwrites the foreground of the cell `(0, 1)`,
and `mat_get_glyph(mat, -1, 0, L)` indexes the block at -2, outside of it.  `mat_add_drop`
at the same positions leaves the grid alone. -/
theorem mat_get_glyph_negative_col :
    Grid grid_3x2 ∧
    mat_get_glyph grid_3x2 0 1 LAYER_FG = some 2 ∧
    mat_get_glyph grid_3x2 1 (-1) LAYER_FG = some 2 ∧
    mat_idx grid_3x2 1 (-1) = 1 ∧
    mat_set_glyph grid_3x2 1 (-1) 5 LAYER_FG
      = some { grid_3x2 with data := [0x21, 0x05, 0x03, 0x40, 0x05, 0x16] } ∧
    mat_idx grid_3x2 (-1) 0 = -2 ∧
    mat_get_glyph grid_3x2 (-1) 0 LAYER_FG = none ∧
    mat_set_glyph grid_3x2 (-1) 0 5 LAYER_FG = none ∧
    mat_add_drop grid_3x2 1 (-1) (LAYER_FG : Int) (fun _ => 0)
      = some (grid_3x2, fun _ => 0) := by
  refine ⟨by decide, by decide, by decide, by decide, by decide, by decide, by decide,
    by decide, rfl⟩

set_option maxRecDepth 100000 in
theorem val_new_ne_zero_table : ∀ g < 16, g ≠ 0 → ∀ x < 16,
    val_new g x ≠ 0 ∧ val_new x g ≠ 0 := by
  decide

/-- C12, as the claim states it, fails: on the grid of 3 rows and 2 columns the cell
`(0, 1)` is in bounds, and `mat_set_value(mat, 0, 1, 0)`, `mat_set_fg(mat, 0, 1, 0)` and
`mat_set_bg(mat, 1, 1, 0)` write their cell (the block changes) and return 0. -/
theorem set_result_zero_in_bounds :
    Grid grid_3x2 ∧
    mat_set_value grid_3x2 0 1 0
      = some (0, { grid_3x2 with data := [0x21, 0x00, 0x03, 0x40, 0x05, 0x16] }) ∧
    mat_set_fg grid_3x2 0 1 0
      = some (0, { grid_3x2 with data := [0x21, 0x00, 0x03, 0x40, 0x05, 0x16] }) ∧
    mat_set_bg grid_3x2 1 1 0
      = some (0, { grid_3x2 with data := [0x21, 0x02, 0x03, 0x00, 0x05, 0x16] }) := by
  refine ⟨by decide, by decide, by decide, by decide⟩

/-- C12, amended: on a well-formed grid, at a non-negative position in bounds
`mat_set_value` writes the cell and returns the byte written, and `mat_set_fg` and
`mat_set_bg` write the cell and return the byte `val_new(glyph, bg)`, `val_new(fg, glyph)`
they wrote; at a non-negative position with `row >= rows` or `col >= cols` all three
return 0 and leave the grid as it is.  So a non-zero result always tells that the
position is in bounds, and the result is non-zero for every in-bounds write of a non-zero
byte, for `mat_set_fg` and `mat_set_bg` in particular for every glyph in 1..15. -/
theorem set_result_is_byte_written (m : matrix) (hG : Grid m) (row col value : Nat) :
    (row < m.rows → col < m.cols →
      ∃ fg bg : Nat,
        mat_get_fg m (row : Int) (col : Int) = some fg ∧
        mat_get_bg m (row : Int) (col : Int) = some bg ∧
        mat_set_value m (row : Int) (col : Int) value
          = some (value, { m with data := m.data.set (row * m.cols + col) value }) ∧
        mat_set_fg m (row : Int) (col : Int) value
          = some (val_new value bg,
              { m with data := m.data.set (row * m.cols + col) (val_new value bg) }) ∧
        mat_set_bg m (row : Int) (col : Int) value
          = some (val_new fg value,
              { m with data := m.data.set (row * m.cols + col) (val_new fg value) }) ∧
        (1 ≤ value → value ≤ 15 → val_new value bg ≠ 0 ∧ val_new fg value ≠ 0)) ∧
    (m.rows ≤ row ∨ m.cols ≤ col →
      mat_set_value m (row : Int) (col : Int) value = some (0, m) ∧
      mat_set_fg m (row : Int) (col : Int) value = some (0, m) ∧
      mat_set_bg m (row : Int) (col : Int) value = some (0, m)) ∧
    (∀ (res : Nat) (m' : matrix),
      (mat_set_value m (row : Int) (col : Int) value = some (res, m') ∨
       mat_set_fg m (row : Int) (col : Int) value = some (res, m') ∨
       mat_set_bg m (row : Int) (col : Int) value = some (res, m')) →
      res ≠ 0 → row < m.rows ∧ col < m.cols) := by
  have hoob : m.rows ≤ row ∨ m.cols ≤ col →
      mat_set_value m (row : Int) (col : Int) value = some (0, m) ∧
      mat_set_fg m (row : Int) (col : Int) value = some (0, m) ∧
      mat_set_bg m (row : Int) (col : Int) value = some (0, m) := by
    intro h
    have h' : (m.rows : Int) ≤ (row : Int) ∨ (m.cols : Int) ≤ (col : Int) := by omega
    refine ⟨mat_set_value_oob m _ h', ?_, ?_⟩
    · unfold mat_set_fg mat_get_bg
      rw [mat_get_value_oob m h']
      exact mat_set_value_oob m _ h'
    · unfold mat_set_bg mat_get_fg
      rw [mat_get_value_oob m h']
      exact mat_set_value_oob m _ h'
  refine ⟨?_, hoob, ?_⟩
  · intro hr hc
    have hv := mat_get_value_inb hG hr hc
    have hbyte := bytes_getD hG.2.2.2.2.1 (row * m.cols + col)
    refine ⟨val_get_fg (m.data.getD (row * m.cols + col) 0),
      val_get_bg (m.data.getD (row * m.cols + col) 0), ?_, ?_,
      mat_set_value_inb hG hr hc value, ?_, ?_, ?_⟩
    · unfold mat_get_fg; rw [hv]; rfl
    · unfold mat_get_bg; rw [hv]; rfl
    · unfold mat_set_fg mat_get_bg
      rw [hv]
      exact mat_set_value_inb hG hr hc _
    · unfold mat_set_bg mat_get_fg
      rw [hv]
      exact mat_set_value_inb hG hr hc _
    · intro h1 h15
      have hlt := val_get_lt_table _ hbyte
      exact ⟨(val_new_ne_zero_table value (by omega) (by omega) _ hlt.2).1,
        (val_new_ne_zero_table value (by omega) (by omega) _ hlt.1).2⟩
  · intro res m' hres hne
    by_contra hnot
    have h : m.rows ≤ row ∨ m.cols ≤ col := by omega
    obtain ⟨h1, h2, h3⟩ := hoob h
    rw [h1, h2, h3] at hres
    rcases hres with h | h | h <;>
    · have := (Prod.mk.inj (Option.some.inj h)).1
      exact hne this.symm

theorem set_result_is_byte_written_witness :
    Grid grid_3x2 ∧
    ((1 < grid_3x2.rows → 1 < grid_3x2.cols →
      ∃ fg bg : Nat,
        mat_get_fg grid_3x2 ((1 : Nat) : Int) ((1 : Nat) : Int) = some fg ∧
        mat_get_bg grid_3x2 ((1 : Nat) : Int) ((1 : Nat) : Int) = some bg ∧
        mat_set_value grid_3x2 ((1 : Nat) : Int) ((1 : Nat) : Int) 3
          = some (3, { grid_3x2 with data := grid_3x2.data.set (1 * grid_3x2.cols + 1) 3 }) ∧
        mat_set_fg grid_3x2 ((1 : Nat) : Int) ((1 : Nat) : Int) 3
          = some (val_new 3 bg,
              { grid_3x2 with
                data := grid_3x2.data.set (1 * grid_3x2.cols + 1) (val_new 3 bg) }) ∧
        mat_set_bg grid_3x2 ((1 : Nat) : Int) ((1 : Nat) : Int) 3
          = some (val_new fg 3,
              { grid_3x2 with
                data := grid_3x2.data.set (1 * grid_3x2.cols + 1) (val_new fg 3) }) ∧
        (1 ≤ 3 → 3 ≤ 15 → val_new 3 bg ≠ 0 ∧ val_new fg 3 ≠ 0)) ∧
    (grid_3x2.rows ≤ 1 ∨ grid_3x2.cols ≤ 1 →
      mat_set_value grid_3x2 ((1 : Nat) : Int) ((1 : Nat) : Int) 3 = some (0, grid_3x2) ∧
      mat_set_fg grid_3x2 ((1 : Nat) : Int) ((1 : Nat) : Int) 3 = some (0, grid_3x2) ∧
      mat_set_bg grid_3x2 ((1 : Nat) : Int) ((1 : Nat) : Int) 3 = some (0, grid_3x2)) ∧
    (∀ (res : Nat) (m' : matrix),
      (mat_set_value grid_3x2 ((1 : Nat) : Int) ((1 : Nat) : Int) 3 = some (res, m') ∨
       mat_set_fg grid_3x2 ((1 : Nat) : Int) ((1 : Nat) : Int) 3 = some (res, m') ∨
       mat_set_bg grid_3x2 ((1 : Nat) : Int) ((1 : Nat) : Int) 3 = some (res, m')) →
      res ≠ 0 → 1 < grid_3x2.rows ∧ 1 < grid_3x2.cols)) :=
  ⟨by decide, set_result_is_byte_written grid_3x2 (by decide) 1 1 3⟩

/-! ## Options, random range, cadence of the driver loop -/

/-- C14 (configuration range): for every parsed value of `opts.drops` and `opts.speed`
(every 8-bit value in particular), after the default substitution and `clamp_uint8` of
`main` each factor lies in 1..100, is 10 when the parsed value was 0, is the parsed value
when that lies in 1..100 and is 100 when it was above 100; the density
`DROPS_BASE_VALUE * drops`, as the exact rational `drops / 1000`, lies in (0, 1]. -/
theorem main_factors_range (drops speed : Nat) :
    (1 ≤ main_drops drops ∧ main_drops drops ≤ 100 ∧
      (drops = 0 → main_drops drops = 10) ∧
      (1 ≤ drops → drops ≤ 100 → main_drops drops = drops) ∧
      (100 < drops → main_drops drops = 100)) ∧
    (1 ≤ main_speed speed ∧ main_speed speed ≤ 100 ∧
      (speed = 0 → main_speed speed = 10) ∧
      (1 ≤ speed → speed ≤ 100 → main_speed speed = speed) ∧
      (100 < speed → main_speed speed = 100)) ∧
    main_drops_ratio drops = (main_drops drops : ℚ) / 1000 ∧
    0 < main_drops_ratio drops ∧ main_drops_ratio drops ≤ 1 := by
  have key : ∀ v : Nat,
      1 ≤ clamp_uint8 (if v = 0 then 10 else v) 1 100 ∧
      clamp_uint8 (if v = 0 then 10 else v) 1 100 ≤ 100 ∧
      (v = 0 → clamp_uint8 (if v = 0 then 10 else v) 1 100 = 10) ∧
      (1 ≤ v → v ≤ 100 → clamp_uint8 (if v = 0 then 10 else v) 1 100 = v) ∧
      (100 < v → clamp_uint8 (if v = 0 then 10 else v) 1 100 = 100) := by
    intro v
    unfold clamp_uint8
    by_cases h0 : v = 0
    · subst h0; simp
    · rw [if_neg h0]
      by_cases h1 : v < 1
      · omega
      · rw [if_neg h1]
        by_cases h2 : v > 100
        · rw [if_pos h2]; omega
        · rw [if_neg h2]; omega
  have hd := key drops
  have hs := key speed
  refine ⟨hd, hs, ?_, ?_, ?_⟩
  · unfold main_drops_ratio DROPS_BASE_VALUE
    ring
  · unfold main_drops_ratio DROPS_BASE_VALUE
    have h1 : (1 : ℚ) ≤ (main_drops drops : ℚ) := by exact_mod_cast hd.1
    positivity
  · unfold main_drops_ratio DROPS_BASE_VALUE
    have h2 : (main_drops drops : ℚ) ≤ 100 := by exact_mod_cast hd.2.1
    linarith

/-- C15 (random range): for ints `min <= max` whose range size `max - min + 1` is a
positive `int`, and every `rand()` result `r`, `rand_int(min, max)` is
`min + r mod (max - min + 1)` and lies in `[min, max]`; every value of `[min, max]` is
returned for an `r` not above `max - min`.  Hence for a grid with at least one row and
column `rand_int(0, cols - 1)` is a column of the grid, `rand_int(0, rows - 1)` a row of
the grid, and `rand_int(LAYER_FG, LAYER_BG)` is one of the two layers. -/
theorem rand_int_range (min max : Int) (hle : min ≤ max) (hrep : max - min + 1 < 2 ^ 31) :
    (∀ r : Nat, rand_int min max r = min + (r : Int) % (max - min + 1) ∧
      min ≤ rand_int min max r ∧ rand_int min max r ≤ max) ∧
    (∀ v : Int, min ≤ v → v ≤ max →
      ∃ r : Nat, (r : Int) ≤ max - min ∧ (r : Int) < 2 ^ 31 ∧ rand_int min max r = v) ∧
    (∀ (m : matrix) (r : Nat), 1 ≤ m.cols →
      0 ≤ rand_int 0 ((m.cols : Int) - 1) r ∧ rand_int 0 ((m.cols : Int) - 1) r < m.cols) ∧
    (∀ (m : matrix) (r : Nat), 1 ≤ m.rows →
      0 ≤ rand_int 0 ((m.rows : Int) - 1) r ∧ rand_int 0 ((m.rows : Int) - 1) r < m.rows) ∧
    (∀ r : Nat, rand_int (LAYER_FG : Int) (LAYER_BG : Int) r = (LAYER_FG : Int) ∨
      rand_int (LAYER_FG : Int) (LAYER_BG : Int) r = (LAYER_BG : Int)) := by
  have hk : (max + 1) - min = max - min + 1 := by ring
  have hpos : 0 < max - min + 1 := by omega
  have heq : ∀ r : Nat, rand_int min max r = min + (r : Int) % (max - min + 1) := by
    intro r
    unfold rand_int
    rw [hk, Int.tmod_eq_emod (Int.ofNat_nonneg r) (le_of_lt hpos)]
  refine ⟨?_, ?_, ?_, ?_, ?_⟩
  · intro r
    have h1 := Int.emod_nonneg (r : Int) (ne_of_gt hpos)
    have h2 := Int.emod_lt_of_pos (r : Int) hpos
    rw [heq r]
    exact ⟨rfl, by omega, by omega⟩
  · intro v hv1 hv2
    refine ⟨(v - min).toNat, ?_, ?_, ?_⟩
    · omega
    · omega
    · rw [heq]
      have hcast : (((v - min).toNat : Nat) : Int) = v - min := Int.toNat_of_nonneg (by omega)
      rw [hcast, Int.emod_eq_of_lt (by omega) (by omega)]
      ring
  · intro m r hc
    rw [rand_col]
    have := Nat.mod_lt r (show 0 < m.cols by omega)
    omega
  · intro m r hr
    rw [rand_col]
    have := Nat.mod_lt r (show 0 < m.rows by omega)
    omega
  · intro r
    obtain ⟨L, hL, h⟩ := rand_layer r
    rw [h]
    rcases hL with rfl | rfl
    · exact Or.inl rfl
    · exact Or.inr rfl

theorem rand_int_range_witness :
    ((-3 : Int) ≤ 4 ∧ (4 : Int) - (-3) + 1 < 2 ^ 31) ∧
    ((∀ r : Nat, rand_int (-3) 4 r = -3 + (r : Int) % (4 - (-3) + 1) ∧
      -3 ≤ rand_int (-3) 4 r ∧ rand_int (-3) 4 r ≤ 4) ∧
    (∀ v : Int, -3 ≤ v → v ≤ 4 →
      ∃ r : Nat, (r : Int) ≤ 4 - (-3) ∧ (r : Int) < 2 ^ 31 ∧ rand_int (-3) 4 r = v) ∧
    (∀ (m : matrix) (r : Nat), 1 ≤ m.cols →
      0 ≤ rand_int 0 ((m.cols : Int) - 1) r ∧ rand_int 0 ((m.cols : Int) - 1) r < m.cols) ∧
    (∀ (m : matrix) (r : Nat), 1 ≤ m.rows →
      0 ≤ rand_int 0 ((m.rows : Int) - 1) r ∧ rand_int 0 ((m.rows : Int) - 1) r < m.rows) ∧
    (∀ r : Nat, rand_int (LAYER_FG : Int) (LAYER_BG : Int) r = (LAYER_FG : Int) ∨
      rand_int (LAYER_FG : Int) (LAYER_BG : Int) r = (LAYER_BG : Int))) :=
  ⟨by decide, rand_int_range (-3) 4 (by decide) (by decide)⟩

theorem main_layer_parity (k : Nat) :
    main_layer k = if k % 2 = 0 then LAYER_FG else LAYER_BG := by
  induction k with
  | zero => rfl
  | succ k ih =>
    rw [main_layer, ih]
    by_cases h : k % 2 = 0
    · have h1 : (k + 1) % 2 ≠ 0 := by omega
      rw [if_pos h, if_neg h1]
      rfl
    · have h1 : (k + 1) % 2 = 0 := by omega
      rw [if_neg h, if_pos h1]
      rfl

/-- C18 (layer cadence): with `layer` starting at `LAYER_FG` and toggled at the end of
every iteration of the loop of `main`, the `mat_update` calls of the `n`-th iteration
(`n = 1, 2, ...`) are one call for `LAYER_FG`, followed by one call for `LAYER_BG` exactly
when `n` is even; so the foreground is updated exactly once per iteration, the background
at most once and only after the foreground, and never in two consecutive iterations. -/
theorem main_layer_cadence (n : Nat) (hn : 1 ≤ n) :
    main_updates n = (if n % 2 = 0 then [LAYER_FG, LAYER_BG] else [LAYER_FG]) ∧
    (main_updates n).count LAYER_FG = 1 ∧
    (main_updates n).head? = some LAYER_FG ∧
    (LAYER_BG ∈ main_updates n ↔ n % 2 = 0) ∧
    (main_updates n).count LAYER_BG ≤ 1 ∧
    ¬ (LAYER_BG ∈ main_updates n ∧ LAYER_BG ∈ main_updates (n + 1)) := by
  have key : ∀ j : Nat, 1 ≤ j →
      main_updates j = (if j % 2 = 0 then [LAYER_FG, LAYER_BG] else [LAYER_FG]) := by
    intro j hj
    unfold main_updates
    rw [main_layer_parity]
    by_cases h : j % 2 = 0
    · have h1 : (j - 1) % 2 ≠ 0 := by omega
      rw [if_pos h, if_neg h1]
      rfl
    · have h1 : (j - 1) % 2 = 0 := by omega
      rw [if_neg h, if_pos h1]
      rfl
  rw [key n hn, key (n + 1) (by omega)]
  by_cases h : n % 2 = 0
  · rw [if_pos h, if_neg (by omega)]
    refine ⟨rfl, by decide, rfl, ?_, by decide, ?_⟩
    · simp [h]
    · intro hh; exact absurd hh.2 (by decide)
  · rw [if_neg h]
    refine ⟨rfl, by decide, rfl, ?_, by decide, ?_⟩
    · simp [h, LAYER_FG, LAYER_BG]
    · intro hh; exact absurd hh.1 (by decide)

theorem main_layer_cadence_witness :
    1 ≤ 4 ∧
    (main_updates 4 = (if 4 % 2 = 0 then [LAYER_FG, LAYER_BG] else [LAYER_FG]) ∧
    (main_updates 4).count LAYER_FG = 1 ∧
    (main_updates 4).head? = some LAYER_FG ∧
    (LAYER_BG ∈ main_updates 4 ↔ 4 % 2 = 0) ∧
    (main_updates 4).count LAYER_BG ≤ 1 ∧
    ¬ (LAYER_BG ∈ main_updates 4 ∧ LAYER_BG ∈ main_updates (4 + 1))) :=
  ⟨by decide, main_layer_cadence 4 (by decide)⟩

/-! ## Printing -/

theorem mem_read_inb {d : List Nat} {i : Nat} (h : i < d.length) :
    mem_read d (i : Int) = some (d.getD i 0) := by
  unfold mem_read
  rw [if_neg (by omega), Int.toNat_ofNat]
  exact getElem?_eq_some_getD h

theorem glyphs_lookup {g : Nat} (h : g < NUM_GLYPHS) : glyphs[g]? = some (glyphs.getD g 0) :=
  getElem?_eq_some_getD h

theorem mat_print_loop_spec {m : matrix} (hG : Grid m) (hP : Palette m) :
    ∀ (n i : Nat) (out : List Out), i + n = m.rows * m.cols →
      mat_print_loop m n (i : Int) out
        = some (out ++ ((List.range' i n).map fun j =>
            render_cell (val_get_fg (m.data.getD j 0)) (val_get_bg (m.data.getD j 0))).flatten)
  | 0, i, out, _ => by simp [mat_print_loop]
  | n + 1, i, out, h => by
    have hi : i < m.rows * m.cols := by omega
    have hlen : i < m.data.length := lt_of_lt_of_le hi hG.2.2.2.1
    have hcast : ((i : Int) + 1) = ((i + 1 : Nat) : Int) := by push_cast; rfl
    have hp := hP i hi
    have hfg : val_get_fg (m.data.getD i 0) < NUM_GLYPHS := hp.1
    have hbg : val_get_bg (m.data.getD i 0) < NUM_GLYPHS := hp.2
    have h0 : (0 : Nat) < NUM_GLYPHS := by decide
    have hc0 : colors[0]? = some COLOR_FG_0 := rfl
    have hc1 : colors[1]? = some COLOR_FG_1 := rfl
    rw [mat_print_loop, mem_read_inb hlen]
    simp only [Option.bind_eq_bind, Option.some_bind, hcast]
    rw [List.range'_succ, List.map_cons, List.flatten_cons, ← List.append_assoc]
    by_cases h1 : val_get_fg (m.data.getD i 0) ≠ 0
    · rw [if_pos h1, glyphs_lookup hfg, hc0]
      simp only [Option.bind_eq_bind, Option.some_bind]
      rw [mat_print_loop_spec hG hP n (i + 1) _ (by omega), render_cell, if_pos h1]
    · rw [if_neg h1]
      by_cases h2 : val_get_bg (m.data.getD i 0) ≠ 0
      · rw [if_pos h2, glyphs_lookup hbg, hc1]
        simp only [Option.bind_eq_bind, Option.some_bind]
        rw [mat_print_loop_spec hG hP n (i + 1) _ (by omega), render_cell, if_neg h1,
          if_pos h2]
      · rw [if_neg h2, glyphs_lookup h0]
        simp only [Option.bind_eq_bind, Option.some_bind]
        rw [mat_print_loop_spec hG hP n (i + 1) _ (by omega), render_cell, if_neg h1,
          if_neg h2]

theorem mat_print_size_eq {m : matrix} (hG : Grid m) : mat_print_size m = m.rows * m.cols := by
  unfold mat_print_size
  have h31 := hG.2.2.1
  have hc : ((m.cols : Int) * (m.rows : Int)) = ((m.rows * m.cols : Nat) : Int) := by
    push_cast; ring
  rw [hc, wrap32_of_lt (by positivity) (by exact_mod_cast h31)]
  unfold SIZE_MOD
  omega

theorem mat_print_spec {m : matrix} (hG : Grid m) (hP : Palette m) :
    mat_print m = some (((List.range (m.rows * m.cols)).map fun j =>
      render_cell (val_get_fg (m.data.getD j 0)) (val_get_bg (m.data.getD j 0))).flatten
        ++ [Out.flush]) := by
  unfold mat_print
  have h := mat_print_loop_spec hG hP (m.rows * m.cols) 0 [] (by omega)
  simp only [Nat.cast_zero, List.nil_append] at h
  rw [mat_print_size_eq hG, h, List.range_eq_range']
  rfl

theorem idx_div {cols c : Nat} (r : Nat) (hc : c < cols) : (r * cols + c) / cols = r := by
  have hpos : 0 < cols := by omega
  rw [Nat.add_comm, Nat.add_mul_div_right _ _ hpos, Nat.div_eq_of_lt hc, Nat.zero_add]

/-- Every index below `rows * cols` is the index of a cell `(r, c)` of the grid. -/
theorem idx_cell {m : matrix} {i : Nat} (hi : i < m.rows * m.cols) :
    ∃ r c, r < m.rows ∧ c < m.cols ∧ i = r * m.cols + c := by
  have hpos : 0 < m.cols := by
    rcases Nat.eq_zero_or_pos m.cols with h | h
    · rw [h] at hi; omega
    · exact h
  refine ⟨i / m.cols, i % m.cols, ?_, Nat.mod_lt _ hpos, ?_⟩
  · exact Nat.div_lt_of_lt_mul (by rw [Nat.mul_comm]; exact hi)
  · rw [Nat.mul_comm]; exact (Nat.div_add_mod i m.cols).symm

/-- The palette range in terms of `mat_get_glyph`. -/
theorem Palette_of_get {m : matrix} (hG : Grid m)
    (h : ∀ (r c L g : Nat), r < m.rows → c < m.cols → (L = LAYER_FG ∨ L = LAYER_BG) →
      mat_get_glyph m (r : Int) (c : Int) L = some g → g < NUM_GLYPHS) : Palette m := by
  intro i hi
  obtain ⟨r, c, hr, hc, rfl⟩ := idx_cell hi
  exact ⟨h r c _ _ hr hc (Or.inl rfl) (mat_get_glyph_inb hG hr hc _),
    h r c _ _ hr hc (Or.inr rfl) (mat_get_glyph_inb hG hr hc _)⟩

/-- C13 (render priority): on a well-formed grid whose glyph indices are indices of the
palette, `mat_print` returns; it writes one chunk per cell, `rows * cols` chunks in
row-major order (the chunk of the cell `(r, c)` is chunk number `r * cols + c`), and then
flushes.  The chunk of a cell with foreground index `fg` and background index `bg` is
`colors[0]`, bold, `glyphs[fg]` when `fg != 0`; else `colors[1]`, normal, `glyphs[bg]`
when `bg != 0`; else `glyphs[0]` alone; it holds exactly one glyph.  The function has no
result but its output: the grid is only read. -/
theorem mat_print_render (m : matrix) (hG : Grid m)
    (hpal : ∀ (r c L g : Nat), r < m.rows → c < m.cols → (L = LAYER_FG ∨ L = LAYER_BG) →
      mat_get_glyph m (r : Int) (c : Int) L = some g → g < NUM_GLYPHS) :
    ∃ chunks : List (List Out),
      mat_print m = some (chunks.flatten ++ [Out.flush]) ∧
      chunks.length = m.rows * m.cols ∧
      (∀ r c : Nat, r < m.rows → c < m.cols → ∃ fg bg : Nat,
        mat_get_glyph m (r : Int) (c : Int) LAYER_FG = some fg ∧
        mat_get_glyph m (r : Int) (c : Int) LAYER_BG = some bg ∧
        chunks[r * m.cols + c]? = some (render_cell fg bg) ∧
        (fg ≠ 0 → glyphs[fg]? = some (glyphs.getD fg 0) ∧ render_cell fg bg =
          [Out.puts (colors.getD 0 ""), Out.puts ANSI_FONT_BOLD, Out.putc (glyphs.getD fg 0)]) ∧
        (fg = 0 → bg ≠ 0 → glyphs[bg]? = some (glyphs.getD bg 0) ∧ render_cell fg bg =
          [Out.puts (colors.getD 1 ""), Out.puts ANSI_FONT_NORMAL,
            Out.putc (glyphs.getD bg 0)]) ∧
        (fg = 0 → bg = 0 → render_cell fg bg = [Out.putc (glyphs.getD 0 0)]) ∧
        (render_cell fg bg).countP Out.is_putc = 1) := by
  have hP := Palette_of_get hG hpal
  refine ⟨_, mat_print_spec hG hP, by simp, ?_⟩
  intro r c hr hc
  have hi := idx_lt hr hc
  have hp := hP _ hi
  refine ⟨_, _, mat_get_glyph_inb hG hr hc _, mat_get_glyph_inb hG hr hc _, ?_, ?_, ?_, ?_, ?_⟩
  · rw [List.getElem?_map, List.getElem?_range hi]
    rfl
  · intro h
    exact ⟨glyphs_lookup hp.1, by rw [render_cell, if_pos h]; rfl⟩
  · intro h1 h2
    exact ⟨glyphs_lookup hp.2, by rw [render_cell, if_neg (by simpa using h1), if_pos h2]; rfl⟩
  · intro h1 h2
    rw [render_cell, if_neg (by simpa using h1), if_neg (by simpa using h2)]
  · unfold render_cell
    split
    · rfl
    · split <;> rfl

/-- The palette range read through `mat_get_glyph`. -/
theorem Palette_get {m : matrix} (hG : Grid m) (hP : Palette m) (r c L g : Nat)
    (hr : r < m.rows) (hc : c < m.cols) (hL : L = LAYER_FG ∨ L = LAYER_BG)
    (h : mat_get_glyph m (r : Int) (c : Int) L = some g) : g < NUM_GLYPHS := by
  rw [mat_get_glyph_inb hG hr hc L] at h
  have hp := hP _ (idx_lt hr hc)
  rw [← Option.some.inj h]
  rcases hL with rfl | rfl
  · exact hp.1
  · exact hp.2

theorem mat_print_render_witness :
    (Grid grid_3x2 ∧
      ∀ (r c L g : Nat), r < grid_3x2.rows → c < grid_3x2.cols →
        (L = LAYER_FG ∨ L = LAYER_BG) →
        mat_get_glyph grid_3x2 (r : Int) (c : Int) L = some g → g < NUM_GLYPHS) ∧
    ∃ chunks : List (List Out),
      mat_print grid_3x2 = some (chunks.flatten ++ [Out.flush]) ∧
      chunks.length = grid_3x2.rows * grid_3x2.cols ∧
      (∀ r c : Nat, r < grid_3x2.rows → c < grid_3x2.cols → ∃ fg bg : Nat,
        mat_get_glyph grid_3x2 (r : Int) (c : Int) LAYER_FG = some fg ∧
        mat_get_glyph grid_3x2 (r : Int) (c : Int) LAYER_BG = some bg ∧
        chunks[r * grid_3x2.cols + c]? = some (render_cell fg bg) ∧
        (fg ≠ 0 → glyphs[fg]? = some (glyphs.getD fg 0) ∧ render_cell fg bg =
          [Out.puts (colors.getD 0 ""), Out.puts ANSI_FONT_BOLD, Out.putc (glyphs.getD fg 0)]) ∧
        (fg = 0 → bg ≠ 0 → glyphs[bg]? = some (glyphs.getD bg 0) ∧ render_cell fg bg =
          [Out.puts (colors.getD 1 ""), Out.puts ANSI_FONT_NORMAL,
            Out.putc (glyphs.getD bg 0)]) ∧
        (fg = 0 → bg = 0 → render_cell fg bg = [Out.putc (glyphs.getD 0 0)]) ∧
        (render_cell fg bg).countP Out.is_putc = 1) :=
  ⟨⟨by decide, Palette_get (by decide) (by decide)⟩,
   mat_print_render grid_3x2 (by decide) (Palette_get (by decide) (by decide))⟩

/-! ## The counter does not wrap -/

/-- The value `mat_mov_col` returns is not above a consistent `char_count`. -/
theorem Counted_mov_col_le {m : matrix} (hM : Counted m) {c L : Nat} (hc : c < m.cols)
    (hL : L = LAYER_FG ∨ L = LAYER_BG) :
    ∃ (dropped : Nat) (m' : matrix), mat_mov_col m (c : Int) L = some (dropped, m') ∧
      dropped ≤ m'.char_count ∧
      Counted { m' with char_count := (m'.char_count + SIZE_MOD - dropped) % SIZE_MOD } ∧
      m'.cols = m.cols := by
  obtain ⟨dropped, m', hrun, hM', _, hcols, _⟩ := Counted_mov_col hM hc hL
  obtain ⟨hG, hrows, _, hcnt⟩ := hM
  obtain ⟨d', hrun2, _, _, _, _, _, _, hC⟩ := mat_mov_col_spec hG hrows hc hL
  rw [hrun] at hrun2
  have heq := Option.some.inj hrun2
  have h1 : dropped = _ := (Prod.mk.inj heq).1
  have h2 : m' = _ := (Prod.mk.inj heq).2
  refine ⟨dropped, m', hrun, ?_, hM', hcols⟩
  rw [h2]
  show dropped ≤ m.char_count
  rw [← h1] at hC
  have hle : layer_count m L ≤ m.char_count := by
    rw [hcnt]
    rcases hL with rfl | rfl <;> omega
  unfold layer_count at hle
  omega

theorem Counted_fall_wraps {L : Nat} (hL : L = LAYER_FG ∨ L = LAYER_BG) :
    ∀ (n col : Nat) (m : matrix), Counted m → col + n ≤ m.cols →
      mat_update_fall_wraps L n col m = some false
  | 0, _, _, _, _ => rfl
  | n + 1, col, m, hM, hn => by
    obtain ⟨dropped, m1, hrun, hle, hM1, hc1⟩ := Counted_mov_col_le hM (c := col) (by omega) hL
    have ih := Counted_fall_wraps hL n (col + 1) _ hM1 (by show col + 1 + n ≤ m1.cols; omega)
    rw [mat_update_fall_wraps, hrun]
    simp only [Option.bind_eq_bind, Option.some_bind]
    rw [ih]
    simp only [Option.some_bind, Option.pure_def, Bool.or_false]
    exact congrArg some (decide_eq_false (by omega))

/-- C19 (counter invariant): starting from an all-blank well-formed grid with at least one
row and column and `char_count == 0`, every finite sequence of `mat_add_drop` (any row and
column, either layer), `mat_update` (either layer) and `mat_rain` calls returns, and
afterwards `char_count` is the number of cells with a non-zero foreground index plus the
number of cells with a non-zero background index.  From every grid reached this way the
fall loop of `mat_update`, for either layer, makes no subtraction
`char_count -= mat_mov_col(...)` that wraps below 0. -/
theorem char_count_invariant (m : matrix) (hG : Grid m) (hrows : 1 ≤ m.rows)
    (hcols : 1 ≤ m.cols) (hblank : ∀ b ∈ m.data.take (m.rows * m.cols), b = 0)
    (hcount : m.char_count = 0) (ops : List Op) (rng : Rng) :
    ∃ (m' : matrix) (rng' : Rng), run_ops ops m rng = some (m', rng') ∧
      m'.char_count = layer_count m' LAYER_FG + layer_count m' LAYER_BG ∧
      mat_update_fall_wraps LAYER_FG m'.cols 0 m' = some false ∧
      mat_update_fall_wraps LAYER_BG m'.cols 0 m' = some false := by
  have hM : Counted m :=
    ⟨hG, hrows, hcols, by rw [hcount, layer_count_blank hblank, layer_count_blank hblank]⟩
  obtain ⟨m', rng', hrun, hM', _⟩ := Counted_run_ops ops m rng hM
  exact ⟨m', rng', hrun, hM'.2.2.2,
    Counted_fall_wraps (Or.inl rfl) m'.cols 0 m' hM' (by omega),
    Counted_fall_wraps (Or.inr rfl) m'.cols 0 m' hM' (by omega)⟩

theorem char_count_invariant_witness :
    (Grid grid_blank_2x2 ∧ 1 ≤ grid_blank_2x2.rows ∧ 1 ≤ grid_blank_2x2.cols ∧
      (∀ b ∈ grid_blank_2x2.data.take (grid_blank_2x2.rows * grid_blank_2x2.cols), b = 0) ∧
      grid_blank_2x2.char_count = 0) ∧
    ∃ (m' : matrix) (rng' : Rng),
      run_ops [Op.add_drop 1 0 Layer.bg, Op.update Layer.bg, Op.rain, Op.add_drop 1 1 Layer.fg,
          Op.update Layer.fg] grid_blank_2x2 (fun n => 5 * n + 2) = some (m', rng') ∧
      m'.char_count = layer_count m' LAYER_FG + layer_count m' LAYER_BG ∧
      mat_update_fall_wraps LAYER_FG m'.cols 0 m' = some false ∧
      mat_update_fall_wraps LAYER_BG m'.cols 0 m' = some false :=
  ⟨by decide, char_count_invariant grid_blank_2x2 (by decide) (by decide) (by decide)
    (by decide) (by decide) _ (fun n => 5 * n + 2)⟩

/-! ## Invariants of sequences of calls -/

/-- The cases of a call of `mat_add_drop` on a well-formed grid: nothing happens, or the
position is a cell of the grid that is blank on the layer and gets the glyph
`1 + rng 0 % 6`. -/
theorem mat_add_drop_cases {m : matrix} (hG : Grid m) (row col : Int) {L : Nat}
    (hL : L = LAYER_FG ∨ L = LAYER_BG) (rng : Rng) :
    mat_add_drop m row col (L : Int) rng = some (m, rng) ∨
    ∃ r c : Nat, row = (r : Int) ∧ col = (c : Int) ∧ r < m.rows ∧ c < m.cols ∧
      get_layer (m.data.getD (r * m.cols + c) 0) L = 0 ∧
      mat_add_drop m row col (L : Int) rng = some ({ m with
        data := (m.data.set (r * m.cols + c)
          (put_layer (m.data.getD (r * m.cols + c) 0) (1 + rng 0 % 6) L)),
        char_count := (m.char_count + 1) % SIZE_MOD }, rng.next) := by
  by_cases hout : row < 0 ∨ (m.rows : Int) ≤ row ∨ col < 0 ∨ (m.cols : Int) ≤ col
  · exact Or.inl (mat_add_drop_oob m _ rng hout)
  · obtain ⟨r, rfl⟩ := Int.eq_ofNat_of_zero_le (show 0 ≤ row by omega)
    obtain ⟨c, rfl⟩ := Int.eq_ofNat_of_zero_le (show 0 ≤ col by omega)
    have hr : r < m.rows := by omega
    have hc : c < m.cols := by omega
    rw [mat_add_drop_inb hG hr hc hL rng]
    by_cases h : get_layer (m.data.getD (r * m.cols + c) 0) L ≠ 0
    · rw [if_pos h]; exact Or.inl rfl
    · rw [if_neg h]
      exact Or.inr ⟨r, c, rfl, rfl, hr, hc, by simpa using h, rfl⟩

/-- A property of grids that every effective `mat_add_drop` and every step of the fall
loop keeps is kept by every sequence of calls. -/
theorem run_ops_invariant (P : matrix → Prop)
    (hadd : ∀ (m : matrix) (row col : Int) (L : Nat) (rng : Rng), P m →
      (L = LAYER_FG ∨ L = LAYER_BG) →
      ∃ (m' : matrix) (rng' : Rng), mat_add_drop m row col (L : Int) rng = some (m', rng') ∧
        P m' ∧ m'.cols = m.cols)
    (hmov : ∀ (m : matrix) (c L : Nat), P m → c < m.cols → (L = LAYER_FG ∨ L = LAYER_BG) →
      ∃ (dropped : Nat) (m' : matrix), mat_mov_col m (c : Int) L = some (dropped, m') ∧
        P { m' with char_count := (m'.char_count + SIZE_MOD - dropped) % SIZE_MOD } ∧
        m'.cols = m.cols) :
    ∀ (ops : List Op) (m : matrix) (rng : Rng), P m →
      ∃ (m' : matrix) (rng' : Rng), run_ops ops m rng = some (m', rng') ∧ P m' := by
  have hfall : ∀ (L : Nat), (L = LAYER_FG ∨ L = LAYER_BG) → ∀ (n col : Nat) (m : matrix),
      P m → col + n ≤ m.cols →
      ∃ m' : matrix, mat_update_fall L n col m = some m' ∧ P m' := by
    intro L hL n
    induction n with
    | zero => intro col m hP _; exact ⟨m, rfl, hP⟩
    | succ n ih =>
      intro col m hP hn
      obtain ⟨dropped, m1, hrun, hP1, hc1⟩ := hmov m col L hP (by omega) hL
      obtain ⟨m2, hrun2, hP2⟩ := ih (col + 1) _ hP1 (by show col + 1 + n ≤ m1.cols; omega)
      refine ⟨m2, ?_, hP2⟩
      rw [mat_update_fall, hrun]
      exact hrun2
  have hspawn : ∀ (L : Nat), (L = LAYER_FG ∨ L = LAYER_BG) → ∀ (n : Nat) (m : matrix)
      (rng : Rng), P m →
      ∃ (m' : matrix) (rng' : Rng), mat_update_spawn L n m rng = some (m', rng') ∧ P m' := by
    intro L hL n
    induction n with
    | zero => intro m rng hP; exact ⟨m, rng, rfl, hP⟩
    | succ n ih =>
      intro m rng hP
      obtain ⟨m1, rng1, hrun, hP1, _⟩ :=
        hadd m 0 (rand_int 0 ((m.cols : Int) - 1) (rng 0)) L rng.next hP hL
      obtain ⟨m2, rng2, hrun2, hP2⟩ := ih m1 rng1 hP1
      refine ⟨m2, rng2, ?_, hP2⟩
      rw [mat_update_spawn]
      simp only [Option.bind_eq_bind]
      rw [hrun]
      exact hrun2
  have hrain : ∀ (n : Nat) (m : matrix) (rng : Rng), P m →
      ∃ (m' : matrix) (rng' : Rng), mat_rain_loop n m rng = some (m', rng') ∧ P m' := by
    intro n
    induction n with
    | zero => intro m rng hP; exact ⟨m, rng, rfl, hP⟩
    | succ n ih =>
      intro m rng hP
      obtain ⟨L, hL, hLeq⟩ := rand_layer (rng 2)
      obtain ⟨m1, rng1, hrun, hP1, _⟩ :=
        hadd m (rand_int 0 ((m.rows : Int) - 1) (rng 1))
          (rand_int 0 ((m.cols : Int) - 1) (rng 0)) L rng.next.next.next hP hL
      obtain ⟨m2, rng2, hrun2, hP2⟩ := ih m1 rng1 hP1
      refine ⟨m2, rng2, ?_, hP2⟩
      rw [mat_rain_loop]
      simp only [Option.bind_eq_bind]
      rw [hLeq, hrun]
      exact hrun2
  intro ops
  induction ops with
  | nil => intro m rng hP; exact ⟨m, rng, rfl, hP⟩
  | cons op ops ih =>
    intro m rng hP
    have hstep : ∃ (m1 : matrix) (rng1 : Rng), op.run m rng = some (m1, rng1) ∧ P m1 := by
      cases op with
      | add_drop row col layer =>
        obtain ⟨m1, rng1, h, hP1, _⟩ := hadd m row col layer.tag rng hP layer.tag_cases
        exact ⟨m1, rng1, h, hP1⟩
      | update layer =>
        obtain ⟨m1, h1, hP1⟩ := hfall layer.tag layer.tag_cases m.cols 0 m hP (by omega)
        obtain ⟨m2, rng2, h2, hP2⟩ :=
          hspawn layer.tag layer.tag_cases (spawn_iterations (drops_to_add m1)) m1 rng hP1
        refine ⟨m2, rng2, ?_, hP2⟩
        show mat_update m layer.tag rng = _
        rewrite [mat_update_of_fall rng h1]
        exact h2
      | rain =>
        simp only [Op.run, mat_rain]
        exact hrain _ m rng hP
    obtain ⟨m1, rng1, hrun, hP1⟩ := hstep
    obtain ⟨m2, rng2, hrun2, hP2⟩ := ih m1 rng1 hP1
    refine ⟨m2, rng2, ?_, hP2⟩
    rw [run_ops]
    simp only [Option.bind_eq_bind]
    rw [hrun]
    exact hrun2

/-! ## The palette range -/

theorem getD_of_take_zero {l : List Nat} {n : Nat} (h : ∀ b ∈ l.take n, b = 0) {i : Nat}
    (hi : i < n) : l.getD i 0 = 0 := by
  by_cases hl : i < l.length
  · rw [List.getD_eq_getElem l 0 hl]
    apply h
    rw [List.mem_iff_getElem]
    refine ⟨i, by simp; omega, ?_⟩
    simp
  · exact List.getD_eq_default l 0 (Nat.le_of_not_lt hl)

theorem Palette_blank {m : matrix} (hblank : ∀ b ∈ m.data.take (m.rows * m.cols), b = 0) :
    Palette m := by
  intro i hi
  rw [getD_of_take_zero hblank hi]
  decide

theorem Palette_add_drop (m : matrix) (row col : Int) (L : Nat) (rng : Rng)
    (hP : Grid m ∧ 0 < m.rows ∧ Palette m) (hL : L = LAYER_FG ∨ L = LAYER_BG) :
    ∃ (m' : matrix) (rng' : Rng), mat_add_drop m row col (L : Int) rng = some (m', rng') ∧
      (Grid m' ∧ 0 < m'.rows ∧ Palette m') ∧ m'.cols = m.cols := by
  obtain ⟨hG, hrows, hpal⟩ := hP
  rcases mat_add_drop_cases hG row col hL rng with h | ⟨r, c, _, _, hr, hc, _, h⟩
  · exact ⟨m, rng, h, ⟨hG, hrows, hpal⟩, rfl⟩
  · refine ⟨_, _, h, ⟨Grid_add_drop hG _ _ L (rand_glyph_lt _), hrows, ?_⟩, rfl⟩
    intro i hi
    have hi' : i < m.rows * m.cols := hi
    show get_layer ((m.data.set _ _).getD i 0) LAYER_FG < NUM_GLYPHS ∧
      get_layer ((m.data.set _ _).getD i 0) LAYER_BG < NUM_GLYPHS
    rw [getD_set]
    split
    · have hb := bytes_getD hG.2.2.2.2.1 (r * m.cols + c)
      have hp := hpal _ (idx_lt hr hc)
      have h7 : 1 + rng 0 % 6 < NUM_GLYPHS := by
        have : NUM_GLYPHS = 7 := by decide
        omega
      rw [get_put_layer hb (rand_glyph_lt _) hL (Or.inl rfl),
        get_put_layer hb (rand_glyph_lt _) hL (Or.inr rfl)]
      constructor
      · split
        · exact h7
        · exact hp.1
      · split
        · exact h7
        · exact hp.2
    · exact hpal i hi'

theorem Palette_mov_col (m : matrix) (c L : Nat) (hP : Grid m ∧ 0 < m.rows ∧ Palette m)
    (hc : c < m.cols) (hL : L = LAYER_FG ∨ L = LAYER_BG) :
    ∃ (dropped : Nat) (m' : matrix), mat_mov_col m (c : Int) L = some (dropped, m') ∧
      (Grid { m' with char_count := (m'.char_count + SIZE_MOD - dropped) % SIZE_MOD } ∧
        0 < m'.rows ∧
        Palette { m' with char_count := (m'.char_count + SIZE_MOD - dropped) % SIZE_MOD }) ∧
      m'.cols = m.cols := by
  obtain ⟨hG, hrows, hpal⟩ := hP
  obtain ⟨d', hrun, hlen, hb, hF1, hF3, hS, hZ, _⟩ := mat_mov_col_spec hG hrows hc hL
  refine ⟨_, _, hrun, ⟨?_, hrows, ?_⟩, rfl⟩
  · exact ⟨hG.1, hG.2.1, hG.2.2.1, by simpa [hlen] using hG.2.2.2.1, hb,
      Nat.mod_lt _ (by decide)⟩
  · intro i hi
    have hi' : i < m.rows * m.cols := hi
    show get_layer (d'.getD i 0) LAYER_FG < NUM_GLYPHS ∧
      get_layer (d'.getD i 0) LAYER_BG < NUM_GLYPHS
    have hp := hpal i hi'
    -- the layer that falls
    have hfall : get_layer (d'.getD i 0) L < NUM_GLYPHS := by
      obtain ⟨r, c', hr, hc', rfl⟩ := idx_cell hi'
      by_cases hcc : c' = c
      · subst hcc
        cases r with
        | zero =>
          rw [Nat.zero_mul, Nat.zero_add, hZ]
          decide
        | succ r =>
          rw [hS r hr]
          have hq := hpal (r * m.cols + c') (idx_lt (by omega) hc')
          rcases hL with rfl | rfl
          · exact hq.1
          · exact hq.2
      · rw [hF1 _ (by rw [idx_mod r hc']; exact hcc)]
        rcases hL with rfl | rfl
        · exact hp.1
        · exact hp.2
    rcases hL with rfl | rfl
    · exact ⟨hfall, by rw [hF3 i LAYER_BG (Or.inr rfl) (by decide)]; exact hp.2⟩
    · exact ⟨by rw [hF3 i LAYER_FG (Or.inl rfl) (by decide)]; exact hp.1, hfall⟩

/-- C20 (palette range): starting from an all-blank well-formed grid with at least one
row and column, every finite sequence of `mat_add_drop`, `mat_update` and `mat_rain` calls
on the two layers returns, and afterwards the foreground and the background glyph index
of every cell is at most 6, below `NUM_GLYPHS = 7`, so that `glyphs[fg]` and `glyphs[bg]`
are entries of the palette and `mat_print` returns without reading outside of it. -/
theorem palette_range_invariant (m : matrix) (hG : Grid m) (hrows : 1 ≤ m.rows)
    (hcols : 1 ≤ m.cols) (hblank : ∀ b ∈ m.data.take (m.rows * m.cols), b = 0)
    (ops : List Op) (rng : Rng) :
    ∃ (m' : matrix) (rng' : Rng), run_ops ops m rng = some (m', rng') ∧
      (∀ (r c L g : Nat), r < m'.rows → c < m'.cols → (L = LAYER_FG ∨ L = LAYER_BG) →
        mat_get_glyph m' (r : Int) (c : Int) L = some g →
        g ≤ 6 ∧ g < NUM_GLYPHS ∧ glyphs[g]? = some (glyphs.getD g 0)) ∧
      (∀ (r c : Nat), r < m'.rows → c < m'.cols → ∃ fg bg : Nat,
        mat_get_glyph m' (r : Int) (c : Int) LAYER_FG = some fg ∧
        mat_get_glyph m' (r : Int) (c : Int) LAYER_BG = some bg ∧ fg ≤ 6 ∧ bg ≤ 6) ∧
      NUM_GLYPHS = 7 ∧
      ∃ out, mat_print m' = some out := by
  have _ := hcols
  obtain ⟨m', rng', hrun, hG', _, hP'⟩ :=
    run_ops_invariant (fun m => Grid m ∧ 0 < m.rows ∧ Palette m) Palette_add_drop
      Palette_mov_col ops m rng ⟨hG, hrows, Palette_blank hblank⟩
  have h7 : NUM_GLYPHS = 7 := by decide
  refine ⟨m', rng', hrun, ?_, ?_, h7, _, mat_print_spec hG' hP'⟩
  · intro r c L g hr hc hL hg
    have hlt := Palette_get hG' hP' r c L g hr hc hL hg
    exact ⟨by omega, hlt, glyphs_lookup hlt⟩
  · intro r c hr hc
    have h1 := mat_get_glyph_inb hG' hr hc LAYER_FG
    have h2 := mat_get_glyph_inb hG' hr hc LAYER_BG
    have l1 := Palette_get hG' hP' r c _ _ hr hc (Or.inl rfl) h1
    have l2 := Palette_get hG' hP' r c _ _ hr hc (Or.inr rfl) h2
    exact ⟨_, _, h1, h2, by omega, by omega⟩

theorem palette_range_invariant_witness :
    (Grid grid_blank_2x2 ∧ 1 ≤ grid_blank_2x2.rows ∧ 1 ≤ grid_blank_2x2.cols ∧
      (∀ b ∈ grid_blank_2x2.data.take (grid_blank_2x2.rows * grid_blank_2x2.cols), b = 0)) ∧
    ∃ (m' : matrix) (rng' : Rng),
      run_ops [Op.rain, Op.update Layer.fg, Op.add_drop 0 0 Layer.bg, Op.update Layer.bg,
          Op.update Layer.fg] grid_blank_2x2 (fun n => 11 * n + 4) = some (m', rng') ∧
      (∀ (r c L g : Nat), r < m'.rows → c < m'.cols → (L = LAYER_FG ∨ L = LAYER_BG) →
        mat_get_glyph m' (r : Int) (c : Int) L = some g →
        g ≤ 6 ∧ g < NUM_GLYPHS ∧ glyphs[g]? = some (glyphs.getD g 0)) ∧
      (∀ (r c : Nat), r < m'.rows → c < m'.cols → ∃ fg bg : Nat,
        mat_get_glyph m' (r : Int) (c : Int) LAYER_FG = some fg ∧
        mat_get_glyph m' (r : Int) (c : Int) LAYER_BG = some bg ∧ fg ≤ 6 ∧ bg ≤ 6) ∧
      NUM_GLYPHS = 7 ∧
      ∃ out, mat_print m' = some out :=
  ⟨by decide, palette_range_invariant grid_blank_2x2 (by decide) (by decide) (by decide)
    (by decide) _ (fun n => 11 * n + 4)⟩

/-! ## One tick -/

/-- The fall loop of `mat_update` over the columns `col, ..., col + n - 1`: these
columns are shifted down by one row on the layer, the other columns and the other layer
are unchanged. -/
theorem mat_update_fall_spec {L : Nat} (hL : L = LAYER_FG ∨ L = LAYER_BG) :
    ∀ (n col : Nat) (m : matrix), Grid m → 0 < m.rows → col + n ≤ m.cols →
      ∃ m' : matrix, mat_update_fall L n col m = some m' ∧ Grid m' ∧
        m'.rows = m.rows ∧ m'.cols = m.cols ∧ m'.char_ratio = m.char_ratio ∧
        (∀ i L', (L' = LAYER_FG ∨ L' = LAYER_BG) → L' ≠ L →
          get_layer (m'.data.getD i 0) L' = get_layer (m.data.getD i 0) L') ∧
        (∀ i, (i % m.cols < col ∨ col + n ≤ i % m.cols) →
          m'.data.getD i 0 = m.data.getD i 0) ∧
        (∀ r c, col ≤ c → c < col + n → r + 1 < m.rows →
          get_layer (m'.data.getD ((r + 1) * m.cols + c) 0) L
            = get_layer (m.data.getD (r * m.cols + c) 0) L) ∧
        (∀ c, col ≤ c → c < col + n → get_layer (m'.data.getD c 0) L = 0)
  | 0, col, m, hG, _, _ =>
    ⟨m, rfl, hG, rfl, rfl, rfl, fun _ _ _ _ => rfl, fun _ _ => rfl,
      fun _ _ h1 h2 _ => absurd h2 (by omega), fun _ h1 h2 => absurd h2 (by omega)⟩
  | n + 1, col, m, hG, hrows, hn => by
    have hc : col < m.cols := by omega
    obtain ⟨d', hrun, hlen, hb, hF1, hF3, hS, hZ, _⟩ := mat_mov_col_spec hG hrows hc hL
    have hG1 : Grid { m with data := d', char_count :=
        (m.char_count + SIZE_MOD -
          (if get_layer (m.data.getD ((m.rows - 1) * m.cols + col) 0) L ≠ 0 then 1 else 0))
          % SIZE_MOD } :=
      ⟨hG.1, hG.2.1, hG.2.2.1, by simpa [hlen] using hG.2.2.2.1, hb,
        Nat.mod_lt _ (by decide)⟩
    obtain ⟨m2, hrun2, hG2, hr2, hc2, hq2, hA, hB, hSh, hZe⟩ :=
      mat_update_fall_spec hL n (col + 1) _ hG1 hrows (by show col + 1 + n ≤ m.cols; omega)
    refine ⟨m2, ?_, hG2, hr2, hc2, hq2, ?_, ?_, ?_, ?_⟩
    · rw [mat_update_fall, hrun]
      exact hrun2
    · intro i L' hL' hne
      rw [hA i L' hL' hne]
      exact hF3 i L' hL' hne
    · intro i hi
      have h1 := hB i (by show i % m.cols < col + 1 ∨ col + 1 + n ≤ i % m.cols; omega)
      rw [h1]
      exact hF1 i (by omega)
    · intro r c hc1 hc2' hr
      have hcm : c < m.cols := by omega
      by_cases hcc : c = col
      · subst hcc
        have h1 := hB ((r + 1) * m.cols + c)
          (by show _ % m.cols < c + 1 ∨ _; rw [idx_mod (r + 1) hcm]; omega)
        rw [h1]
        exact hS r hr
      · have h1 := hSh r c (by omega) (by omega) hr
        rw [h1]
        show get_layer (d'.getD (r * m.cols + c) 0) L = _
        rw [hF1 _ (by rw [idx_mod r hcm]; exact hcc)]
    · intro c hc1 hc2'
      have hcm : c < m.cols := by omega
      by_cases hcc : c = col
      · subst hcc
        have h1 := hB c (by show c % m.cols < c + 1 ∨ _; rw [Nat.mod_eq_of_lt hcm]; omega)
        rw [h1]
        exact hZ
      · exact hZe c (by omega) (by omega)

/-- The spawn loop of `mat_update` changes row 0 of the layer only. -/
theorem mat_update_spawn_spec {L : Nat} (hL : L = LAYER_FG ∨ L = LAYER_BG) :
    ∀ (n : Nat) (m : matrix) (rng : Rng), Grid m →
      ∃ (m' : matrix) (rng' : Rng), mat_update_spawn L n m rng = some (m', rng') ∧ Grid m' ∧
        m'.rows = m.rows ∧ m'.cols = m.cols ∧ m'.char_ratio = m.char_ratio ∧
        (∀ i L', (L' = LAYER_FG ∨ L' = LAYER_BG) → L' ≠ L →
          get_layer (m'.data.getD i 0) L' = get_layer (m.data.getD i 0) L') ∧
        (∀ i, m.cols ≤ i → m'.data.getD i 0 = m.data.getD i 0)
  | 0, m, rng, hG => ⟨m, rng, rfl, hG, rfl, rfl, rfl, fun _ _ _ _ => rfl, fun _ _ => rfl⟩
  | n + 1, m, rng, hG => by
    have hstep : ∃ (m1 : matrix) (rng1 : Rng),
        mat_add_drop m 0 (rand_int 0 ((m.cols : Int) - 1) (rng 0)) (L : Int) rng.next
          = some (m1, rng1) ∧ Grid m1 ∧
        m1.rows = m.rows ∧ m1.cols = m.cols ∧ m1.char_ratio = m.char_ratio ∧
        (∀ i L', (L' = LAYER_FG ∨ L' = LAYER_BG) → L' ≠ L →
          get_layer (m1.data.getD i 0) L' = get_layer (m.data.getD i 0) L') ∧
        (∀ i, m.cols ≤ i → m1.data.getD i 0 = m.data.getD i 0) := by
      rcases mat_add_drop_cases hG 0 (rand_int 0 ((m.cols : Int) - 1) (rng 0)) hL rng.next
        with h | ⟨r, c, hr0, _, _, hc, _, h⟩
      · exact ⟨m, _, h, hG, rfl, rfl, rfl, fun _ _ _ _ => rfl, fun _ _ => rfl⟩
      · have hr : r = 0 := by omega
        subst hr
        refine ⟨_, _, h, Grid_add_drop hG _ _ L (rand_glyph_lt _), rfl, rfl, rfl, ?_, ?_⟩
        · intro i L' hL' hne
          show get_layer ((m.data.set _ _).getD i 0) L' = _
          rw [getD_set]
          split
          · rename_i hh
            rw [get_put_layer (bytes_getD hG.2.2.2.2.1 _) (rand_glyph_lt _) hL hL',
              if_neg hne, hh.1]
          · rfl
        · intro i hi
          show (m.data.set _ _).getD i 0 = _
          rw [getD_set, if_neg (by omega)]
    obtain ⟨m1, rng1, hrun, hG1, hr1, hc1, hq1, hA1, hB1⟩ := hstep
    obtain ⟨m2, rng2, hrun2, hG2, hr2, hc2, hq2, hA2, hB2⟩ :=
      mat_update_spawn_spec hL n m1 rng1 hG1
    refine ⟨m2, rng2, ?_, hG2, hr2.trans hr1, hc2.trans hc1, hq2.trans hq1, ?_, ?_⟩
    · rw [mat_update_spawn]
      simp only [Option.bind_eq_bind]
      rw [hrun]
      exact hrun2
    · intro i L' hL' hne
      rw [hA2 i L' hL' hne, hA1 i L' hL' hne]
    · intro i hi
      rw [hB2 i (by omega), hB1 i hi]

/-- C16 (layer independence of a tick): on a well-formed grid with at least one row and
column, for a layer `L` of the two and every random stream, `mat_update(mat, L)` returns;
the dimensions and the density are unchanged, the glyph of the other layer is unchanged in
every cell, and on `L` every cell `(r + 1, c)` holds the glyph the cell `(r, c)` held
before the call, so that glyphs that were not there before appear in row 0 only. -/
theorem mat_update_layer_independent (m : matrix) (hG : Grid m) (hrows : 1 ≤ m.rows)
    (hcols : 1 ≤ m.cols) (L : Nat) (hL : L = LAYER_FG ∨ L = LAYER_BG) (rng : Rng) :
    ∃ (m' : matrix) (rng' : Rng), mat_update m L rng = some (m', rng') ∧
      m'.rows = m.rows ∧ m'.cols = m.cols ∧ m'.char_ratio = m.char_ratio ∧
      (∀ (r c L' : Nat), r < m.rows → c < m.cols → (L' = LAYER_FG ∨ L' = LAYER_BG) →
        L' ≠ L → ∃ x,
          mat_get_glyph m (r : Int) (c : Int) L' = some x ∧
          mat_get_glyph m' (r : Int) (c : Int) L' = some x) ∧
      (∀ (r c : Nat), r + 1 < m.rows → c < m.cols → ∃ x,
          mat_get_glyph m (r : Int) (c : Int) L = some x ∧
          mat_get_glyph m' ((r + 1 : Nat) : Int) (c : Int) L = some x) := by
  have _ := hcols
  obtain ⟨m1, hrun1, hG1, hr1, hc1, hq1, hA1, _, hS1, _⟩ :=
    mat_update_fall_spec hL m.cols 0 m hG hrows (by omega)
  obtain ⟨m2, rng2, hrun2, hG2, hr2, hc2, hq2, hA2, hB2⟩ :=
    mat_update_spawn_spec hL (spawn_iterations (drops_to_add m1)) m1 rng hG1
  have hrows2 : m2.rows = m.rows := hr2.trans hr1
  have hcols2 : m2.cols = m.cols := hc2.trans hc1
  refine ⟨m2, rng2, ?_, hrows2, hcols2, hq2.trans hq1, ?_, ?_⟩
  · rewrite [mat_update_of_fall rng hrun1]
    exact hrun2
  · intro r c L' hr hc hL' hne
    refine ⟨_, mat_get_glyph_inb hG hr hc L', ?_⟩
    rw [mat_get_glyph_inb hG2 (by omega) (by omega) L', hcols2, hA2 _ L' hL' hne,
      hA1 _ L' hL' hne]
  · intro r c hr hc
    refine ⟨_, mat_get_glyph_inb hG (by omega) hc L, ?_⟩
    rw [mat_get_glyph_inb hG2 (by omega) (by omega) L, hcols2]
    have hge : m1.cols ≤ (r + 1) * m.cols + c := by
      rw [hc1, Nat.succ_mul]
      omega
    rw [hB2 _ hge, hS1 r c (by omega) (by omega) hr]

theorem mat_update_layer_independent_witness :
    (Grid grid_3x2 ∧ 1 ≤ grid_3x2.rows ∧ 1 ≤ grid_3x2.cols ∧
      (LAYER_BG = LAYER_FG ∨ LAYER_BG = LAYER_BG)) ∧
    ∃ (m' : matrix) (rng' : Rng),
      mat_update grid_3x2 LAYER_BG (fun n => 2 * n + 1) = some (m', rng') ∧
      m'.rows = grid_3x2.rows ∧ m'.cols = grid_3x2.cols ∧
      m'.char_ratio = grid_3x2.char_ratio ∧
      (∀ (r c L' : Nat), r < grid_3x2.rows → c < grid_3x2.cols →
        (L' = LAYER_FG ∨ L' = LAYER_BG) → L' ≠ LAYER_BG → ∃ x,
          mat_get_glyph grid_3x2 (r : Int) (c : Int) L' = some x ∧
          mat_get_glyph m' (r : Int) (c : Int) L' = some x) ∧
      (∀ (r c : Nat), r + 1 < grid_3x2.rows → c < grid_3x2.cols → ∃ x,
          mat_get_glyph grid_3x2 (r : Int) (c : Int) LAYER_BG = some x ∧
          mat_get_glyph m' ((r + 1 : Nat) : Int) (c : Int) LAYER_BG = some x) :=
  ⟨by decide, mat_update_layer_independent grid_3x2 (by decide) (by decide) (by decide)
    LAYER_BG (by decide) (fun n => 2 * n + 1)⟩

/-! ## Seeding -/

end Futteru
